import Mathlib

/-!
Verification development for the school-management-system data layer.

The Python source is shallowly embedded: the object graph held by the
in-memory datastore (`FileManager` in `sms/data/dm/file.py`) is modelled
arena-style, as association lists keyed by the identifier strings the
Python dictionaries use, with relationship references represented by the
referenced entity's identifier (the spec's own design note: entities in
ID-keyed maps, relationships as ID lists).  In-place mutation of a Python
object that lives in a datastore dictionary becomes a functional update of
the corresponding dictionary entry.  A raised exception becomes an error
component carried next to the post-mutation state, since the Python
datastore keeps whatever mutations happened before the raise.
-/

namespace SMS

/-! ## String helpers modelling Python's `str.strip` and `str.upper` -/

/-- Whitespace stripped by Python's `str.strip()` (ASCII subset: space, tab,
newline, carriage return, vertical tab, form feed). -/
def isSpaceChar (c : Char) : Bool :=
  c == ' ' || c == Char.ofNat 9 || c == Char.ofNat 10 || c == Char.ofNat 13 ||
  c == Char.ofNat 11 || c == Char.ofNat 12

/-- Model of Python's `str.strip()`: drop leading and trailing whitespace. -/
def pystrip (s : String) : String :=
  String.mk (((s.data.dropWhile isSpaceChar).reverse.dropWhile isSpaceChar).reverse)

/-- Model of Python's `str.upper()` (ASCII upper-casing). -/
def pyupper (s : String) : String :=
  String.mk (s.data.map Char.toUpper)

/-! ## Validators (`sms/utils/validator.py`, standard-library fallback branch) -/

/-- Character class of the name regex `[a-zA-Z' .-]` (apostrophe written by code). -/
def nameChar (c : Char) : Bool :=
  c.isAlpha || c == Char.ofNat 39 || c == ' ' || c == '.' || c == '-'

/-- Validates a person name: `re.fullmatch(r"^[a-zA-Z' .-]+$", name.strip())`. -/
def check_name (s : String) : Bool :=
  let t := (pystrip s).data
  !t.isEmpty && t.all nameChar

/-- Validates an age: `0 <= age <= 120`. -/
def check_age (age : Int) : Bool :=
  decide (0 ≤ age) && decide (age ≤ 120)

/-- Character class of the email local part `[a-zA-Z0-9_.+-]`. -/
def localChar (c : Char) : Bool :=
  c.isAlphanum || c == '_' || c == '.' || c == '+' || c == '-'

/-- Character class of the first domain label `[a-zA-Z0-9-]`. -/
def domChar (c : Char) : Bool :=
  c.isAlphanum || c == '-'

/-- Character class of the domain remainder `[a-zA-Z0-9-.]`. -/
def domDotChar (c : Char) : Bool :=
  c.isAlphanum || c == '-' || c == '.'

/-- Splits a character list at the first occurrence of `c`, if any. -/
def splitFirst (cs : List Char) (c : Char) : Option (List Char × List Char) :=
  match cs with
  | [] => none
  | x :: xs =>
    if x == c then some ([], xs)
    else (splitFirst xs c).map (fun p => (x :: p.1, p.2))

/-- Validates an email against the fallback regex
`^[a-zA-Z0-9_.+-]+@[a-zA-Z0-9-]+\.[a-zA-Z0-9-.]+$` applied to the stripped
string.  Since none of the character classes contain the at-sign, and the
first domain label excludes dots, the regex match is equivalent to this
deterministic decomposition at the first at-sign and the first dot after it. -/
def check_email (s : String) : Bool :=
  match splitFirst (pystrip s).data '@' with
  | none => false
  | some (lo, dom) =>
    match splitFirst dom '.' with
    | none => false
    | some (d1, rest) =>
      !lo.isEmpty && lo.all localChar &&
      !d1.isEmpty && d1.all domChar &&
      !rest.isEmpty && rest.all domDotChar

/-- Validates a student or instructor ID: `re.fullmatch(r"^\d{9}$", p_id.strip())`. -/
def check_id (s : String) : Bool :=
  let t := (pystrip s).data
  t.length == 9 && t.all Char.isDigit

/-- Validates a course ID: `re.fullmatch(r"^[a-zA-Z]{4}\d{3}[a-zA-Z]?$", c_id.strip())`. -/
def check_course_id (s : String) : Bool :=
  match (pystrip s).data with
  | [a, b, c, d, x, y, z] =>
    a.isAlpha && b.isAlpha && c.isAlpha && d.isAlpha && x.isDigit && y.isDigit && z.isDigit
  | [a, b, c, d, x, y, z, e] =>
    a.isAlpha && b.isAlpha && c.isAlpha && d.isAlpha && x.isDigit && y.isDigit && z.isDigit &&
    e.isAlpha
  | _ => false

/-- Character class of the course name regex (alphanumerics, space, apostrophe,
dot, comma, colon, ampersand, parentheses, slash, hyphen). -/
def courseNameChar (c : Char) : Bool :=
  c.isAlphanum || c == ' ' || c == Char.ofNat 39 || c == '.' || c == ',' || c == ':' ||
  c == '&' || c == '(' || c == ')' || c == '/' || c == '-'

/-- Validates a course name: length of the stripped string in `(3, 100]` and the
character-class regex. -/
def check_course_name (s : String) : Bool :=
  let t := (pystrip s).data
  decide (3 < t.length) && decide (t.length ≤ 100) && t.all courseNameChar

/-! ## Entity models (`sms/models/`), arena-style -/

/-- Student record (`sms/models/student.py`).  `registered_courses` holds the
`course_id` fields of the referenced `Course` objects. -/
structure Student where
  name : String
  age : Int
  email : String
  student_id : String
  registered_courses : List String
deriving Repr, DecidableEq

/-- Instructor record (`sms/models/instructor.py`).  `assigned_courses` holds the
`course_id` fields of the referenced `Course` objects. -/
structure Instructor where
  name : String
  age : Int
  email : String
  instructor_id : String
  assigned_courses : List String
deriving Repr, DecidableEq

/-- Course record (`sms/models/course.py`).  `instructor_id` is the
`instructor_id` field of the referenced `Instructor` object and
`enrolled_students` holds the `student_id` fields of the enrolled students. -/
structure Course where
  course_id : String
  course_name : String
  instructor_id : String
  enrolled_students : List String
deriving Repr, DecidableEq

/-- Error raised by the data layer.  The Python code raises `DataError` with a
human-readable message (elided here: each constructor corresponds to one raise
site), `ValueError` from constructors and `list.remove`, and `KeyError` from
subscripting; sqlite raises `IntegrityError`, wrapped into `DataError`. -/
inductive DErr where
  | invalidName
  | invalidAge
  | invalidEmail
  | invalidId
  | invalidCourseId
  | invalidCourseName
  | alreadyExists
  | notFound
  | idRequired
  | keyMissing
  | removeMissing
  | integrity
deriving Repr, DecidableEq

deriving instance DecidableEq for Except

/-- Constructor model for `Student.__init__`: validations in source order, the
stored `name`, `email` and `student_id` are the stripped inputs. -/
def Student.make (name : String) (age : Int) (email : String) (student_id : String) :
    Except DErr Student :=
  if !check_name (pystrip name) then .error .invalidName
  else if !check_age age then .error .invalidAge
  else if !check_email (pystrip email) then .error .invalidEmail
  else if !check_id (pystrip student_id) then .error .invalidId
  else .ok { name := (pystrip name), age := age, email := (pystrip email),
             student_id := (pystrip student_id), registered_courses := [] }

/-- Constructor model for `Instructor.__init__`: like `Student.make`, except
that the source stores the raw (unstripped) `instructor_id` after validating its
stripped form. -/
def Instructor.make (name : String) (age : Int) (email : String) (instructor_id : String) :
    Except DErr Instructor :=
  if !check_name (pystrip name) then .error .invalidName
  else if !check_age age then .error .invalidAge
  else if !check_email (pystrip email) then .error .invalidEmail
  else if !check_id (pystrip instructor_id) then .error .invalidId
  else .ok { name := (pystrip name), age := age, email := (pystrip email),
             instructor_id := instructor_id, assigned_courses := [] }

/-- Constructor model for `Course.__init__` up to (not including) the
`instructor.assign_course(self)` side effect, which the call sites perform on
the graph.  The stored `course_id` is stripped and upper-cased; the stored
`course_name` is the raw input (the source validates the stripped name but
assigns the unstripped one). -/
def Course.make (course_id : String) (course_name : String) (instructor_id : String) :
    Except DErr Course :=
  if !check_course_id (pystrip course_id) then .error .invalidCourseId
  else if !check_course_name (pystrip course_name) then .error .invalidCourseName
  else .ok { course_id := pyupper (pystrip course_id), course_name := course_name,
             instructor_id := instructor_id, enrolled_students := [] }

/-- Model of `Instructor.assign_course`: append the course unless a course with
the same `course_id` is already assigned. -/
def Instructor.assign_course (i : Instructor) (cid : String) : Instructor :=
  if i.assigned_courses.contains cid then i
  else { i with assigned_courses := i.assigned_courses ++ [cid] }

/-- Model of `Course.add_student`: append the student unless a student with the
same `student_id` is already enrolled. -/
def Course.add_student (c : Course) (sid : String) : Course :=
  if c.enrolled_students.contains sid then c
  else { c with enrolled_students := c.enrolled_students ++ [sid] }

/-- Model of `Student.register_course`: if the course is not yet registered,
append it and enroll the student in the course; both objects are returned since
the Python method mutates both. -/
def Student.register_course (s : Student) (c : Course) : Student × Course :=
  if s.registered_courses.contains c.course_id then (s, c)
  else ({ s with registered_courses := s.registered_courses ++ [c.course_id] },
        c.add_student s.student_id)

/-- Python truthiness of an optional string (`None` and the empty string are falsy). -/
def truthyStr : Option String → Bool
  | some s => s != ""
  | none => false

/-- Python truthiness of an optional integer (`None` and `0` are falsy). -/
def truthyInt : Option Int → Bool
  | some n => n != 0
  | none => false

/-- Model of `Person.update` acting on a student: each supplied truthy field is
validated and applied in source order; a validation failure raises after the
earlier fields have already been applied, so the partially updated object is
returned together with the error.  (`int(age)` is the identity on the `int`
inputs modelled here.) -/
def Student.update (s : Student) (name : Option String) (age : Option Int)
    (email : Option String) : Student × Option DErr :=
  let step1 : Student × Option DErr :=
    if truthyStr name then
      let n := name.getD ""
      if check_name (pystrip n) then ({ s with name := (pystrip n) }, none)
      else (s, some DErr.invalidName)
    else (s, none)
  match step1 with
  | (s1, some e) => (s1, some e)
  | (s1, none) =>
    let step2 : Student × Option DErr :=
      if truthyInt age then
        let a := age.getD 0
        if check_age a then ({ s1 with age := a }, none)
        else (s1, some DErr.invalidAge)
      else (s1, none)
    match step2 with
    | (s2, some e) => (s2, some e)
    | (s2, none) =>
      if truthyStr email then
        let m := email.getD ""
        if check_email (pystrip m) then ({ s2 with email := (pystrip m) }, none)
        else (s2, some DErr.invalidEmail)
      else (s2, none)

/-- Model of `Person.update` acting on an instructor (identical logic). -/
def Instructor.update (i : Instructor) (name : Option String) (age : Option Int)
    (email : Option String) : Instructor × Option DErr :=
  let step1 : Instructor × Option DErr :=
    if truthyStr name then
      let n := name.getD ""
      if check_name (pystrip n) then ({ i with name := (pystrip n) }, none)
      else (i, some DErr.invalidName)
    else (i, none)
  match step1 with
  | (i1, some e) => (i1, some e)
  | (i1, none) =>
    let step2 : Instructor × Option DErr :=
      if truthyInt age then
        let a := age.getD 0
        if check_age a then ({ i1 with age := a }, none)
        else (i1, some DErr.invalidAge)
      else (i1, none)
    match step2 with
    | (i2, some e) => (i2, some e)
    | (i2, none) =>
      if truthyStr email then
        let m := email.getD ""
        if check_email (pystrip m) then ({ i2 with email := (pystrip m) }, none)
        else (i2, some DErr.invalidEmail)
      else (i2, none)

/-- Model of `Course.update`: a truthy `course_name` is validated and stored
stripped; a truthy `instructor` keyword replaces the instructor reference (an
object argument, modelled by its `instructor_id`); nothing else is touched. -/
def Course.update (c : Course) (course_name : Option String) (instr : Option String) :
    Course × Option DErr :=
  let step1 : Course × Option DErr :=
    if truthyStr course_name then
      let n := course_name.getD ""
      if check_course_name (pystrip n) then ({ c with course_name := (pystrip n) }, none)
      else (c, some DErr.invalidCourseName)
    else (c, none)
  match step1 with
  | (c1, some e) => (c1, some e)
  | (c1, none) =>
    match instr with
    | some iid => ({ c1 with instructor_id := iid }, none)
    | none => (c1, none)

/-! ## Python dictionaries as ordered association lists -/

/-- Ordered string-keyed dictionary, as Python dicts (insertion ordered). -/
abbrev Dict (α : Type) : Type := List (String × α)

/-- Dictionary lookup (`d.get(k)` / `d[k]`): the binding of the first entry
carrying the key, if any. -/
def dget {α : Type} (d : Dict α) (k : String) : Option α :=
  match d with
  | [] => none
  | p :: rest => if p.1 == k then some p.2 else dget rest k

/-- Dictionary membership (`k in d`). -/
def dcontains {α : Type} (d : Dict α) (k : String) : Bool :=
  match d with
  | [] => false
  | p :: rest => p.1 == k || dcontains rest k

/-- Dictionary assignment `d[k] = v`: replace in place if the key is present,
otherwise append (Python dicts are insertion-ordered and assignment keeps the
position of an existing key). -/
def dset {α : Type} (d : Dict α) (k : String) (v : α) : Dict α :=
  match d with
  | [] => [(k, v)]
  | p :: rest => if p.1 == k then (k, v) :: rest else p :: dset rest k v

/-- Dictionary deletion `del d[k]` (call sites check presence first). -/
def ddel {α : Type} (d : Dict α) (k : String) : Dict α :=
  match d with
  | [] => []
  | p :: rest => if p.1 == k then rest else p :: ddel rest k

/-- Dictionary values view `d.values()`. -/
def dvalues {α : Type} (d : Dict α) : List α :=
  d.map Prod.snd

/-- Object graph held by the in-memory datastore (`FileManager.__init__`):
three ID-keyed dictionaries. -/
structure Graph where
  students : Dict Student
  instructors : Dict Instructor
  courses : Dict Course
deriving Repr, DecidableEq

/-- Empty graph. -/
def Graph.empty : Graph := ⟨[], [], []⟩

namespace MemoryDataManager

/-- Model of `MemoryDataManager.add_student`: construct (validating), fail if
the ID is taken, otherwise insert. -/
def add_student (g : Graph) (name : String) (age : Int) (email : String)
    (student_id : String) : Graph × Option DErr :=
  match Student.make name age email student_id with
  | .error e => (g, some e)
  | .ok s =>
    if dcontains g.students s.student_id then (g, some DErr.alreadyExists)
    else ({ g with students := dset g.students s.student_id s }, none)

/-- Model of `MemoryDataManager.edit_student`: requires a truthy `student_id`,
fails if absent from the store, otherwise updates the stored object in place
(partial updates survive a validation failure). -/
def edit_student (g : Graph) (student_id : Option String) (name : Option String)
    (age : Option Int) (email : Option String) : Graph × Option DErr :=
  if !truthyStr student_id then (g, some DErr.idRequired)
  else
    let sid := student_id.getD ""
    match dget g.students sid with
    | none => (g, some DErr.notFound)
    | some s =>
      let (s2, err) := s.update name age email
      ({ g with students := dset g.students sid s2 }, err)

/-- Model of `MemoryDataManager.remove_student`: delete the dictionary entry;
nothing else is touched. -/
def remove_student (g : Graph) (sid : String) : Graph × Option DErr :=
  match dget g.students sid with
  | none => (g, some DErr.notFound)
  | some _ => ({ g with students := ddel g.students sid }, none)

/-- Model of `MemoryDataManager.get_student`. -/
def get_student (g : Graph) (sid : String) : Except DErr Student :=
  match dget g.students sid with
  | none => .error .notFound
  | some s => .ok s

/-- Model of `MemoryDataManager.add_instructor`. -/
def add_instructor (g : Graph) (name : String) (age : Int) (email : String)
    (instructor_id : String) : Graph × Option DErr :=
  match Instructor.make name age email instructor_id with
  | .error e => (g, some e)
  | .ok i =>
    if dcontains g.instructors i.instructor_id then (g, some DErr.alreadyExists)
    else ({ g with instructors := dset g.instructors i.instructor_id i }, none)

/-- Model of `MemoryDataManager.edit_instructor`. -/
def edit_instructor (g : Graph) (instructor_id : Option String) (name : Option String)
    (age : Option Int) (email : Option String) : Graph × Option DErr :=
  if !truthyStr instructor_id then (g, some DErr.idRequired)
  else
    let iid := instructor_id.getD ""
    match dget g.instructors iid with
    | none => (g, some DErr.notFound)
    | some i =>
      let (i2, err) := i.update name age email
      ({ g with instructors := dset g.instructors iid i2 }, err)

/-- Model of `MemoryDataManager.remove_instructor`: delete the dictionary
entry; nothing else is touched. -/
def remove_instructor (g : Graph) (iid : String) : Graph × Option DErr :=
  match dget g.instructors iid with
  | none => (g, some DErr.notFound)
  | some _ => ({ g with instructors := ddel g.instructors iid }, none)

/-- Model of `MemoryDataManager.get_instructor`. -/
def get_instructor (g : Graph) (iid : String) : Except DErr Instructor :=
  match dget g.instructors iid with
  | none => .error .notFound
  | some i => .ok i

/-- Model of `MemoryDataManager.add_course`.  The Python `instructor` keyword
carries an `Instructor` object; the UI obtains it from the datastore, so it is
modelled by its dictionary key (`ikey`).  The `Course` constructor runs, and
registers the course with the instructor, before the duplicate-ID check. -/
def add_course (g : Graph) (course_id : String) (course_name : String) (ikey : String) :
    Graph × Option DErr :=
  match dget g.instructors ikey with
  | none => (g, some DErr.notFound)
  | some i =>
    match Course.make course_id course_name i.instructor_id with
    | .error e => (g, some e)
    | .ok c =>
      let g1 := { g with instructors := dset g.instructors ikey (i.assign_course c.course_id) }
      if dcontains g1.courses c.course_id then (g1, some DErr.alreadyExists)
      else ({ g1 with courses := dset g1.courses c.course_id c }, none)

/-- Model of `MemoryDataManager.edit_course`: requires a truthy `course_id`,
fails if absent, otherwise applies `Course.update` in place. -/
def edit_course (g : Graph) (course_id : Option String) (course_name : Option String)
    (instr : Option String) : Graph × Option DErr :=
  if !truthyStr course_id then (g, some DErr.idRequired)
  else
    let cid := course_id.getD ""
    match dget g.courses cid with
    | none => (g, some DErr.notFound)
    | some c =>
      let (c2, err) := c.update course_name instr
      ({ g with courses := dset g.courses cid c2 }, err)

/-- Model of the student loop in `MemoryDataManager.remove_course`: each
enrolled student has the course removed from its registered list;
`list.remove` raises if the element is absent, aborting the loop with the
mutations so far.  A student no longer present in the dictionary corresponds to
a detached Python object whose mutation is invisible to the graph. -/
def detachStudents (d : Dict Student) (sids : List String) (cid : String) :
    Dict Student × Option DErr :=
  match sids with
  | [] => (d, none)
  | sid :: rest =>
    match dget d sid with
    | none => detachStudents d rest cid
    | some s =>
      if s.registered_courses.contains cid then
        detachStudents (dset d sid { s with registered_courses := s.registered_courses.erase cid })
          rest cid
      else (d, some DErr.removeMissing)

/-- Model of `MemoryDataManager.remove_course`: remove the course from its
instructor's assigned list (raising if absent), then from every enrolled
student's registered list, then delete the dictionary entry.  An instructor no
longer present in the dictionary corresponds to a detached Python object whose
mutation is invisible to the graph. -/
def remove_course (g : Graph) (cid : String) : Graph × Option DErr :=
  match dget g.courses cid with
  | none => (g, some DErr.notFound)
  | some c =>
    let afterInstr : Graph × Option DErr :=
      match dget g.instructors c.instructor_id with
      | none => (g, none)
      | some i =>
        if i.assigned_courses.contains c.course_id then
          let i2 : Instructor := { i with assigned_courses := i.assigned_courses.erase c.course_id }
          ({ g with instructors := dset g.instructors c.instructor_id i2 }, none)
        else (g, some DErr.removeMissing)
    match afterInstr with
    | (g1, some e) => (g1, some e)
    | (g1, none) =>
      match detachStudents g1.students c.enrolled_students c.course_id with
      | (d, some e) => ({ g1 with students := d }, some e)
      | (d, none) => ({ g1 with students := d, courses := ddel g1.courses cid }, none)

/-- Model of `MemoryDataManager.get_course`. -/
def get_course (g : Graph) (cid : String) : Except DErr Course :=
  match dget g.courses cid with
  | none => .error .notFound
  | some c => .ok c

/-- Model of `MemoryDataManager.enroll_student`: both IDs must resolve, then
`Student.register_course` links the pair (idempotently). -/
def enroll_student (g : Graph) (sid : String) (cid : String) : Graph × Option DErr :=
  match dget g.students sid with
  | none => (g, some DErr.notFound)
  | some s =>
    match dget g.courses cid with
    | none => (g, some DErr.notFound)
    | some c =>
      let (s2, c2) := s.register_course c
      ({ g with students := dset g.students sid s2, courses := dset g.courses cid c2 }, none)

end MemoryDataManager

/-! ## Relational store model (`sms/data/db/contract.py`, `sms/data/db/manager.py`)

The four tables of the fixed schema, with the declared primary-key and
foreign-key behaviour (cascade delete from students/courses to enrollments, a
plain restricting foreign key from courses to instructors).  A violated
constraint on `INSERT` is sqlite's `IntegrityError`, a `sqlite3.Error`. -/

/-- Row of the `students` table (declared column order: name, age, email,
student_id). -/
structure StudentRow where
  name : String
  age : Int
  email : String
  student_id : String
deriving Repr, DecidableEq

/-- Row of the `instructors` table (name, age, email, instructor_id). -/
structure InstructorRow where
  name : String
  age : Int
  email : String
  instructor_id : String
deriving Repr, DecidableEq

/-- Row of the `courses` table (course_id, course_name, instructor_id). -/
structure CourseRow where
  course_id : String
  course_name : String
  instructor_id : String
deriving Repr, DecidableEq

/-- Relational store state: the four tables. -/
structure DB where
  students : List StudentRow
  instructors : List InstructorRow
  courses : List CourseRow
  enrollments : List (String × String)
deriving Repr, DecidableEq

namespace DatabaseManager

/-- Model of `DatabaseManager.get_student` (`SELECT * FROM students WHERE ...`). -/
def get_student (db : DB) (sid : String) : Option StudentRow :=
  db.students.find? (fun r => r.student_id == sid)

/-- Model of `DatabaseManager.get_instructor`. -/
def get_instructor (db : DB) (iid : String) : Option InstructorRow :=
  db.instructors.find? (fun r => r.instructor_id == iid)

/-- Model of `DatabaseManager.get_course`: a join with `instructors`, so a
course row surfaces only together with its instructor row. -/
def get_course (db : DB) (cid : String) : Option (CourseRow × InstructorRow) :=
  match db.courses.find? (fun r => r.course_id == cid) with
  | none => none
  | some r =>
    match db.instructors.find? (fun i => i.instructor_id == r.instructor_id) with
    | none => none
    | some i => some (r, i)

/-- Model of `DatabaseManager.add_student`: plain `INSERT`, primary-key
violation on a duplicate `student_id`. -/
def add_student (db : DB) (r : StudentRow) : Except DErr DB :=
  if db.students.any (fun q => q.student_id == r.student_id) then .error .integrity
  else .ok { db with students := db.students ++ [r] }

/-- Model of `DatabaseManager.add_instructor`. -/
def add_instructor (db : DB) (r : InstructorRow) : Except DErr DB :=
  if db.instructors.any (fun q => q.instructor_id == r.instructor_id) then .error .integrity
  else .ok { db with instructors := db.instructors ++ [r] }

/-- Model of `DatabaseManager.add_course`: primary key on `course_id` and a
foreign key requiring the instructor row to exist. -/
def add_course (db : DB) (r : CourseRow) : Except DErr DB :=
  if db.courses.any (fun q => q.course_id == r.course_id) then .error .integrity
  else if !(db.instructors.any (fun i => i.instructor_id == r.instructor_id)) then
    .error .integrity
  else .ok { db with courses := db.courses ++ [r] }

/-- Model of `DatabaseManager.enroll_student`: plain `INSERT` into
`enrollments`, primary-key violation on a duplicate (student_id, course_id)
pair, foreign keys requiring both referenced rows. -/
def enroll_student (db : DB) (sid cid : String) : Except DErr DB :=
  if db.enrollments.contains (sid, cid) then .error .integrity
  else if !(db.students.any (fun r => r.student_id == sid)) then .error .integrity
  else if !(db.courses.any (fun r => r.course_id == cid)) then .error .integrity
  else .ok { db with enrollments := db.enrollments ++ [(sid, cid)] }

/-- Model of `DatabaseManager.delete_student`: delete the row; the
`ON DELETE CASCADE` foreign key removes the student's enrollment rows. -/
def delete_student (db : DB) (sid : String) : DB :=
  { db with students := db.students.filter (fun r => r.student_id != sid),
            enrollments := db.enrollments.filter (fun e => e.1 != sid) }

/-- Model of `DatabaseManager.delete_course`: delete the row; the cascade
removes the course's enrollment rows. -/
def delete_course (db : DB) (cid : String) : DB :=
  { db with courses := db.courses.filter (fun r => r.course_id != cid),
            enrollments := db.enrollments.filter (fun e => e.2 != cid) }

end DatabaseManager

/-! ## Hydration and the database-backed manager (`sms/data/dm/database.py`) -/

/-- Hydration of the student rows (`Student(*s)` per row, in row order). -/
def hydrateStudents (rows : List StudentRow) : Except DErr (List Student) :=
  match rows with
  | [] => .ok []
  | r :: rest => do
    let s ← Student.make r.name r.age r.email r.student_id
    let others ← hydrateStudents rest
    .ok (s :: others)

/-- Hydration of the instructor rows. -/
def hydrateInstructors (rows : List InstructorRow) : Except DErr (List Instructor) :=
  match rows with
  | [] => .ok []
  | r :: rest => do
    let i ← Instructor.make r.name r.age r.email r.instructor_id
    let others ← hydrateInstructors rest
    .ok (i :: others)

/-- Hydration of the course rows: each row's `instructor_id` is resolved
against the instructor map; an orphaned course is dropped; the `Course`
constructor registers the course with its instructor (mutating the shared
instructor object, here the dictionary entry). -/
def hydrateCourses (rows : List CourseRow) (instrs : Dict Instructor) :
    Except DErr (Dict Instructor × List Course) :=
  match rows with
  | [] => .ok (instrs, [])
  | r :: rest =>
    match dget instrs r.instructor_id with
    | none => hydrateCourses rest instrs
    | some i => do
      let c ← Course.make r.course_id r.course_name i.instructor_id
      let (instrs3, cs) ← hydrateCourses rest (dset instrs r.instructor_id
        (i.assign_course c.course_id))
      .ok (instrs3, c :: cs)

/-- Hydration of the enrollment rows: pairs whose student and course both
resolved are linked by direct appends to both relationship lists (no
idempotence guard in this code path); other pairs are skipped. -/
def hydrateLinks (pairs : List (String × String)) (studs : Dict Student)
    (cours : Dict Course) : Dict Student × Dict Course :=
  match pairs with
  | [] => (studs, cours)
  | (sid, cid) :: rest =>
    match dget studs sid, dget cours cid with
    | some s, some c =>
      hydrateLinks rest
        (dset studs sid
          { s with registered_courses := s.registered_courses ++ [c.course_id] })
        (dset cours cid
          { c with enrolled_students := c.enrolled_students ++ [s.student_id] })
    | _, _ => hydrateLinks rest studs cours

/-- Model of `DatabaseDataManager._get_hydrated_data` computed from the store:
students and instructors first, then courses against the instructor map, then
the enrollment links; the lookup maps are keyed by the entities' own IDs. -/
def hydrate (db : DB) : Except DErr Graph := do
  let studs ← hydrateStudents db.students
  let instrs ← hydrateInstructors db.instructors
  let (instrs2, cours) ← hydrateCourses db.courses
    (instrs.map (fun i => (i.instructor_id, i)))
  let (studDict, courDict) := hydrateLinks db.enrollments
    (studs.map (fun s => (s.student_id, s))) (cours.map (fun c => (c.course_id, c)))
  .ok { students := studDict, instructors := instrs2, courses := courDict }

/-- State of the database-backed manager: the store plus the class-level
hydration cache (`DatabaseDataManager._cache`, `{}` when empty). -/
structure DBState where
  db : DB
  cache : Option Graph
deriving Repr, DecidableEq

namespace DatabaseDataManager

/-- Model of `DatabaseDataManager.add_student`: construct (validating), check
non-existence through a direct store query, insert the raw keyword values.
The cache is not touched. -/
def add_student (st : DBState) (name : String) (age : Int) (email : String)
    (student_id : String) : DBState × Option DErr :=
  match Student.make name age email student_id with
  | .error e => (st, some e)
  | .ok s =>
    match DatabaseManager.get_student st.db s.student_id with
    | some _ => (st, some DErr.alreadyExists)
    | none =>
      match DatabaseManager.add_student st.db ⟨name, age, email, student_id⟩ with
      | .error e => (st, some e)
      | .ok db2 => ({ st with db := db2 }, none)

/-- Model of `DatabaseDataManager.remove_course`: check existence through a
direct store query (the join), delete the row (cascading the enrollment
rows).  The cache is not touched. -/
def remove_course (st : DBState) (cid : String) : DBState × Option DErr :=
  match DatabaseManager.get_course st.db cid with
  | none => (st, some DErr.notFound)
  | some _ => ({ st with db := DatabaseManager.delete_course st.db cid }, none)

/-- Model of `DatabaseDataManager.enroll_student`: both IDs are checked
through direct store queries, then the enrollment row is inserted; a sqlite
error (such as the primary-key violation on a duplicate pair) is wrapped into
a `DataError`.  The cache is not touched. -/
def enroll_student (st : DBState) (sid cid : String) : DBState × Option DErr :=
  match DatabaseManager.get_student st.db sid with
  | none => (st, some DErr.notFound)
  | some _ =>
    match DatabaseManager.get_course st.db cid with
    | none => (st, some DErr.notFound)
    | some _ =>
      match DatabaseManager.enroll_student st.db sid cid with
      | .error _ => (st, some DErr.integrity)
      | .ok db2 => ({ st with db := db2 }, none)

/-- Model of `DatabaseDataManager.get_students`: the cache is cleared
unconditionally, then the whole graph is hydrated from the store and cached,
and the student list is returned. -/
def get_students (st : DBState) : Except DErr (DBState × List Student) :=
  let st1 : DBState := { st with cache := none }
  match hydrate st1.db with
  | .error e => .error e
  | .ok g => .ok ({ st1 with cache := some g }, dvalues g.students)

end DatabaseDataManager

/-! ## Observers on the graph -/

/-- Whether the course keyed `cid` currently lists student `sid` as enrolled. -/
def Graph.enrolledIn (g : Graph) (cid sid : String) : Bool :=
  match dget g.courses cid with
  | some c => c.enrolled_students.contains sid
  | none => false

/-- Whether the instructor keyed `iid` currently lists course `cid` as assigned. -/
def Graph.assignedIn (g : Graph) (iid cid : String) : Bool :=
  match dget g.instructors iid with
  | some i => i.assigned_courses.contains cid
  | none => false

/-- Whether the student keyed `sid` currently lists course `cid` as registered. -/
def Graph.registeredIn (g : Graph) (sid cid : String) : Bool :=
  match dget g.students sid with
  | some s => s.registered_courses.contains cid
  | none => false

/-- Instructor reference of the course keyed `cid`, if the course exists. -/
def Graph.courseInstructor (g : Graph) (cid : String) : Option String :=
  (dget g.courses cid).map Course.instructor_id

/-! ## Concrete example graph, built through the manager operations

Two instructors, one student, one course taught by the first instructor with
the student enrolled — the configuration of the spec's example scenario. -/

/-- Example graph reached by `add_instructor` twice, `add_student`,
`add_course`, `enroll_student`. -/
def exGraph : Graph :=
  (MemoryDataManager.enroll_student
    (MemoryDataManager.add_course
      (MemoryDataManager.add_student
        (MemoryDataManager.add_instructor
          (MemoryDataManager.add_instructor Graph.empty
            "Alice Smith" 45 "alice@univ.edu" "199801234").1
          "Bob Jones" 50 "bob@univ.edu" "199805678").1
        "John Doe" 20 "john@mail.com" "202401111").1
      "EECE230" "Intro to Programming" "199801234").1
    "202401111" "EECE230").1

/-- The student of `exGraph` after enrollment. -/
def exJohn : Student := ⟨"John Doe", 20, "john@mail.com", "202401111", ["EECE230"]⟩

/-- The first instructor of `exGraph` after course creation. -/
def exAlice : Instructor := ⟨"Alice Smith", 45, "alice@univ.edu", "199801234", ["EECE230"]⟩

/-- The second instructor of `exGraph` (no assigned courses). -/
def exBob : Instructor := ⟨"Bob Jones", 50, "bob@univ.edu", "199805678", []⟩

/-- The course of `exGraph` after enrollment. -/
def exCourse : Course := ⟨"EECE230", "Intro to Programming", "199801234", ["202401111"]⟩

/-- Example store: the entities of `exGraph` (without the second instructor)
as relational rows, with the enrollment pair present. -/
def exDB : DB :=
  { students := [⟨"John Doe", 20, "john@mail.com", "202401111"⟩],
    instructors := [⟨"Alice Smith", 45, "alice@univ.edu", "199801234"⟩],
    courses := [⟨"EECE230", "Intro to Programming", "199801234"⟩],
    enrollments := [("202401111", "EECE230")] }

/-- The graph hydrated from `exDB`. -/
def exHyd : Graph :=
  { students := [("202401111", exJohn)],
    instructors := [("199801234", exAlice)],
    courses := [("EECE230", exCourse)] }


/-! ## Serialization engine (`sms/data/dm/file.py`)

A JSON document is modelled by the shapes `save_to_json` writes; entry fields
are `Option`-valued so that a document with missing keys (Python `KeyError`
on subscripting) is expressible.  Reading the file itself can also fail:
`JsonInput.missing` is a `FileNotFoundError`, `JsonInput.invalid` a
`json.JSONDecodeError`; both are caught and only logged by `load_from_json`.
The modelled documents carry the three top-level arrays (a document missing
one of them raises before any entity is constructed, leaving the cleared
graph empty). -/

/-- JSON object of a student or instructor entry (`Person.to_dict` output plus
the subclass fields; the `type` discriminator is never read back and is
omitted).  `courses` is `registered_courses` for students and
`assigned_courses` for instructors; the import reads it only for students. -/
structure RawPerson where
  name : Option String
  age : Option Int
  email : Option String
  pid : Option String
  courses : Option (List String)
deriving Repr, DecidableEq

/-- JSON object of a course entry (`Course.to_dict` output; the
`enrolled_students` array is never read back by the import). -/
structure RawCourse where
  course_id : Option String
  course_name : Option String
  instructor_id : Option String
  enrolled : Option (List String)
deriving Repr, DecidableEq

/-- JSON document with the three top-level arrays. -/
structure RawDoc where
  students : List RawPerson
  instructors : List RawPerson
  courses : List RawCourse
deriving Repr, DecidableEq

/-- Input handed to `load_from_json`. -/
inductive JsonInput where
  | missing
  | invalid
  | doc (d : RawDoc)
deriving Repr, DecidableEq

/-- Serialization of a student (`Student.to_dict`). -/
def Student.to_dict (s : Student) : RawPerson :=
  ⟨some s.name, some s.age, some s.email, some s.student_id, some s.registered_courses⟩

/-- Serialization of an instructor (`Instructor.to_dict`). -/
def Instructor.to_dict (i : Instructor) : RawPerson :=
  ⟨some i.name, some i.age, some i.email, some i.instructor_id, some i.assigned_courses⟩

/-- Serialization of a course (`Course.to_dict`). -/
def Course.to_dict (c : Course) : RawCourse :=
  ⟨some c.course_id, some c.course_name, some c.instructor_id, some c.enrolled_students⟩

/-- Model of `FileManager.save_to_json`: one document with the three entity
arrays in dictionary-value order. -/
def save_to_json (g : Graph) : RawDoc :=
  ⟨(dvalues g.students).map Student.to_dict,
   (dvalues g.instructors).map Instructor.to_dict,
   (dvalues g.courses).map Course.to_dict⟩

/-- Instructor loop of `load_from_json`: `i_data["instructor_id"]` is read
(KeyError if absent), then the constructor arguments (KeyErrors, then
validation), then the dictionary assignment under the raw id value. -/
def loadInstructorsLoop (g : Graph) (es : List RawPerson) : Graph × Option DErr :=
  match es with
  | [] => (g, none)
  | e :: rest =>
    match e.pid with
    | none => (g, some DErr.keyMissing)
    | some iid =>
      match e.name, e.age, e.email with
      | some nm, some ag, some em =>
        match Instructor.make nm ag em iid with
        | .error err => (g, some err)
        | .ok i =>
          loadInstructorsLoop { g with instructors := dset g.instructors iid i } rest
      | _, _, _ => (g, some DErr.keyMissing)

/-- Student loop of `load_from_json` (same shape as the instructor loop). -/
def loadStudentsLoop (g : Graph) (es : List RawPerson) : Graph × Option DErr :=
  match es with
  | [] => (g, none)
  | e :: rest =>
    match e.pid with
    | none => (g, some DErr.keyMissing)
    | some sid =>
      match e.name, e.age, e.email with
      | some nm, some ag, some em =>
        match Student.make nm ag em sid with
        | .error err => (g, some err)
        | .ok s =>
          loadStudentsLoop { g with students := dset g.students sid s } rest
      | _, _, _ => (g, some DErr.keyMissing)

/-- Course loop of `load_from_json`: the instructor is resolved through the
freshly built map; a course whose instructor is missing is dropped; otherwise
the constructor runs (registering the course with its instructor) and the
course is stored under the raw `course_id` value. -/
def loadCoursesLoop (g : Graph) (es : List RawCourse) : Graph × Option DErr :=
  match es with
  | [] => (g, none)
  | e :: rest =>
    match e.course_id with
    | none => (g, some DErr.keyMissing)
    | some cid =>
      match e.instructor_id with
      | none => (g, some DErr.keyMissing)
      | some iid =>
        match dget g.instructors iid with
        | none => loadCoursesLoop g rest
        | some i =>
          match e.course_name with
          | none => (g, some DErr.keyMissing)
          | some cname =>
            match Course.make cid cname i.instructor_id with
            | .error err => (g, some err)
            | .ok c =>
              loadCoursesLoop
                { g with
                  instructors := dset g.instructors iid (i.assign_course c.course_id),
                  courses := dset g.courses cid c } rest

/-- Inner linking loop of `load_from_json`: replay one student's
`registered_courses` id list through `Student.register_course`, skipping ids
that resolve to no course. -/
def linkStudentCourses (g : Graph) (sid : String) (cids : List String) : Graph :=
  match cids with
  | [] => g
  | cid :: rest =>
    match dget g.courses cid with
    | none => linkStudentCourses g sid rest
    | some c =>
      match dget g.students sid with
      | none => linkStudentCourses g sid rest
      | some s =>
        let (s2, c2) := s.register_course c
        linkStudentCourses
          { g with students := dset g.students sid s2, courses := dset g.courses cid c2 }
          sid rest

/-- Outer linking loop of `load_from_json`: for each student entry the student
is fetched by subscripting (KeyError if absent) and its
`registered_courses` key is read (KeyError if absent), then replayed. -/
def loadLinksLoop (g : Graph) (es : List RawPerson) : Graph × Option DErr :=
  match es with
  | [] => (g, none)
  | e :: rest =>
    match e.pid with
    | none => (g, some DErr.keyMissing)
    | some sid =>
      match dget g.students sid with
      | none => (g, some DErr.keyMissing)
      | some _ =>
        match e.courses with
        | none => (g, some DErr.keyMissing)
        | some cids => loadLinksLoop (linkStudentCourses g sid cids) rest

/-- Model of `FileManager.load_from_json`: the datastore is cleared first; a
missing file or invalid JSON is caught and only logged, returning normally
with the cleared graph; otherwise the four loops run in order, any exception
propagating together with the datastore state at the raise. -/
def load_from_json (g : Graph) (input : JsonInput) : Graph × Option DErr :=
  match input with
  | .missing => (Graph.empty, none)
  | .invalid => (Graph.empty, none)
  | .doc d =>
    match loadInstructorsLoop Graph.empty d.instructors with
    | (g1, some e) => (g1, some e)
    | (g1, none) =>
      match loadStudentsLoop g1 d.students with
      | (g2, some e) => (g2, some e)
      | (g2, none) =>
        match loadCoursesLoop g2 d.courses with
        | (g3, some e) => (g3, some e)
        | (g3, none) => loadLinksLoop g3 d.students

/-- CSV file set of a directory: each of the four required files is present
with its typed rows or missing (`FileNotFoundError` on open).  Cell values
are modelled typed; `str`/`int` conversion of in-range ages is the identity. -/
structure CsvFiles where
  instructors : Option (List InstructorRow)
  students : Option (List StudentRow)
  courses : Option (List CourseRow)
  enrollments : Option (List (String × String))
deriving Repr, DecidableEq

/-- Model of `FileManager.save_to_csv`: the four files, rows in
dictionary-value order; enrollment pairs are emitted per student in
registered order. -/
def save_to_csv (g : Graph) : CsvFiles :=
  ⟨some ((dvalues g.instructors).map (fun i => ⟨i.name, i.age, i.email, i.instructor_id⟩)),
   some ((dvalues g.students).map (fun s => ⟨s.name, s.age, s.email, s.student_id⟩)),
   some ((dvalues g.courses).map (fun c => ⟨c.course_id, c.course_name, c.instructor_id⟩)),
   some ((dvalues g.students).flatMap
     (fun s => s.registered_courses.map (fun cid => (s.student_id, cid))))⟩

/-- Instructor loop of `load_from_csv`. -/
def loadCsvInstructorsLoop (g : Graph) (rows : List InstructorRow) : Graph × Option DErr :=
  match rows with
  | [] => (g, none)
  | r :: rest =>
    match Instructor.make r.name r.age r.email r.instructor_id with
    | .error e => (g, some e)
    | .ok i =>
      loadCsvInstructorsLoop { g with instructors := dset g.instructors r.instructor_id i }
        rest

/-- Student loop of `load_from_csv`. -/
def loadCsvStudentsLoop (g : Graph) (rows : List StudentRow) : Graph × Option DErr :=
  match rows with
  | [] => (g, none)
  | r :: rest =>
    match Student.make r.name r.age r.email r.student_id with
    | .error e => (g, some e)
    | .ok s =>
      loadCsvStudentsLoop { g with students := dset g.students r.student_id s } rest

/-- Course loop of `load_from_csv` (same resolution and drop policy as the
JSON course loop). -/
def loadCsvCoursesLoop (g : Graph) (rows : List CourseRow) : Graph × Option DErr :=
  match rows with
  | [] => (g, none)
  | r :: rest =>
    match dget g.instructors r.instructor_id with
    | none => loadCsvCoursesLoop g rest
    | some i =>
      match Course.make r.course_id r.course_name i.instructor_id with
      | .error e => (g, some e)
      | .ok c =>
        loadCsvCoursesLoop
          { g with
            instructors := dset g.instructors r.instructor_id (i.assign_course c.course_id),
            courses := dset g.courses r.course_id c } rest

/-- Enrollment loop of `load_from_csv`: pairs whose student and course both
resolve are linked through `Student.register_course`; others are skipped. -/
def loadCsvLinksLoop (g : Graph) (rows : List (String × String)) : Graph :=
  match rows with
  | [] => g
  | (sid, cid) :: rest =>
    match dget g.students sid with
    | none => loadCsvLinksLoop g rest
    | some s =>
      match dget g.courses cid with
      | none => loadCsvLinksLoop g rest
      | some c =>
        let (s2, c2) := s.register_course c
        loadCsvLinksLoop
          { g with students := dset g.students sid s2, courses := dset g.courses cid c2 }
          rest

/-- Model of `FileManager.load_from_csv`: clear, then read the four files in
order inside one try-block whose `except FileNotFoundError` clears everything
again and returns normally; any other exception (an invalid row) propagates
with the datastore state at the raise. -/
def load_from_csv (g : Graph) (files : CsvFiles) : Graph × Option DErr :=
  match files.instructors with
  | none => (Graph.empty, none)
  | some irows =>
    match loadCsvInstructorsLoop Graph.empty irows with
    | (g1, some e) => (g1, some e)
    | (g1, none) =>
      match files.students with
      | none => (Graph.empty, none)
      | some srows =>
        match loadCsvStudentsLoop g1 srows with
        | (g2, some e) => (g2, some e)
        | (g2, none) =>
          match files.courses with
          | none => (Graph.empty, none)
          | some crows =>
            match loadCsvCoursesLoop g2 crows with
            | (g3, some e) => (g3, some e)
            | (g3, none) =>
              match files.enrollments with
              | none => (Graph.empty, none)
              | some erows => (loadCsvLinksLoop g3 erows, none)

/-! ## Well-formedness and graph equivalence -/

/-- Scalar fields of a student pass the validators and are normalization
fixpoints, so the constructor reproduces them. -/
abbrev StudentFieldsOk (s : Student) : Prop :=
  check_name s.name = true ∧ pystrip s.name = s.name ∧
  check_age s.age = true ∧
  check_email s.email = true ∧ pystrip s.email = s.email ∧
  check_id s.student_id = true ∧ pystrip s.student_id = s.student_id

/-- Scalar fields of an instructor pass the validators and are normalization
fixpoints. -/
abbrev InstructorFieldsOk (i : Instructor) : Prop :=
  check_name i.name = true ∧ pystrip i.name = i.name ∧
  check_age i.age = true ∧
  check_email i.email = true ∧ pystrip i.email = i.email ∧
  check_id i.instructor_id = true ∧ pystrip i.instructor_id = i.instructor_id

/-- Scalar fields of a course pass the validators; the id is already stripped
and upper-cased. -/
abbrev CourseFieldsOk (c : Course) : Prop :=
  check_course_id c.course_id = true ∧ pystrip c.course_id = c.course_id ∧
  pyupper c.course_id = c.course_id ∧
  check_course_name (pystrip c.course_name) = true

/-- Data-model invariants of the object graph: dictionary keys are the
entities' own identifiers and are duplicate-free, scalar fields re-validate,
relationship lists are duplicate-free and reference present entities,
student-course membership is symmetric, and each instructor's assigned set is
exactly the set of courses referencing it. -/
abbrev WF (g : Graph) : Prop :=
  (∀ p ∈ g.students, p.1 = p.2.student_id) ∧
  (∀ p ∈ g.instructors, p.1 = p.2.instructor_id) ∧
  (∀ p ∈ g.courses, p.1 = p.2.course_id) ∧
  (g.students.map Prod.fst).Nodup ∧
  (g.instructors.map Prod.fst).Nodup ∧
  (g.courses.map Prod.fst).Nodup ∧
  (∀ p ∈ g.students, StudentFieldsOk p.2) ∧
  (∀ p ∈ g.instructors, InstructorFieldsOk p.2) ∧
  (∀ p ∈ g.courses, CourseFieldsOk p.2) ∧
  (∀ p ∈ g.students, p.2.registered_courses.Nodup ∧
    ∀ cid ∈ p.2.registered_courses, (dget g.courses cid).isSome = true) ∧
  (∀ q ∈ g.courses, q.2.enrolled_students.Nodup ∧
    (dget g.instructors q.2.instructor_id).isSome = true ∧
    ∀ sid ∈ q.2.enrolled_students, (dget g.students sid).isSome = true) ∧
  (∀ r ∈ g.instructors, r.2.assigned_courses.Nodup ∧
    ∀ cid ∈ r.2.assigned_courses, (dget g.courses cid).isSome = true) ∧
  (∀ p ∈ g.students, ∀ q ∈ g.courses,
    (q.2.course_id ∈ p.2.registered_courses ↔ p.2.student_id ∈ q.2.enrolled_students)) ∧
  (∀ r ∈ g.instructors, ∀ q ∈ g.courses,
    (q.2.course_id ∈ r.2.assigned_courses ↔ q.2.instructor_id = r.2.instructor_id))

/-- Students agree on every scalar field and on registered-course membership. -/
def StudentEquiv (a b : Student) : Prop :=
  a.name = b.name ∧ a.age = b.age ∧ a.email = b.email ∧ a.student_id = b.student_id ∧
  (∀ cid, cid ∈ a.registered_courses ↔ cid ∈ b.registered_courses)

/-- Instructors agree on every scalar field and on assigned-course membership. -/
def InstructorEquiv (a b : Instructor) : Prop :=
  a.name = b.name ∧ a.age = b.age ∧ a.email = b.email ∧
  a.instructor_id = b.instructor_id ∧
  (∀ cid, cid ∈ a.assigned_courses ↔ cid ∈ b.assigned_courses)

/-- Courses agree on ID, name, instructor reference, and enrolled-student
membership. -/
def CourseEquiv (a b : Course) : Prop :=
  a.course_id = b.course_id ∧ a.course_name = b.course_name ∧
  a.instructor_id = b.instructor_id ∧
  (∀ sid, sid ∈ a.enrolled_students ↔ sid ∈ b.enrolled_students)

/-- Relates two optional lookups: both absent, or both present and related. -/
def OptRel {α : Type} (R : α → α → Prop) : Option α → Option α → Prop
  | none, none => True
  | some a, some b => R a b
  | _, _ => False

/-- The two graphs hold the same set of entities with identical scalar fields
and the same relationship edge sets, under every key. -/
def GraphEquiv (g g2 : Graph) : Prop :=
  (∀ k, OptRel StudentEquiv (dget g.students k) (dget g2.students k)) ∧
  (∀ k, OptRel InstructorEquiv (dget g.instructors k) (dget g2.instructors k)) ∧
  (∀ k, OptRel CourseEquiv (dget g.courses k) (dget g2.courses k))

/-- A malformed JSON document used as the C7 counterexample: one valid
instructor entry followed by an entry missing its `name` key. -/
def c7doc : RawDoc :=
  ⟨[], [⟨some "Alice Smith", some 45, some "alice@univ.edu", some "199801234", some []⟩,
        ⟨none, some 50, some "bob@univ.edu", some "199805678", some []⟩], []⟩

/-- CSV files used as the C8 counterexample: an instructors file whose second
row fails name validation, with the other three files missing. -/
def c8files : CsvFiles :=
  ⟨some [⟨"Alice Smith", 45, "alice@univ.edu", "199801234"⟩,
         ⟨"", 50, "bob@univ.edu", "199805678"⟩],
   none, none, none⟩

/-- A student as reconstructed by the import loops before linking. -/
def resetS (s : Student) : Student := { s with registered_courses := [] }

/-- An instructor as reconstructed by the import loops before course
assignment. -/
def resetI (i : Instructor) : Instructor := { i with assigned_courses := [] }

/-- A course as reconstructed by the import loops before linking. -/
def resetC (c : Course) : Course := { c with enrolled_students := [] }

/-- Replaying the registered lists of a student sequence through
`linkStudentCourses`, the common core of the JSON and CSV linking phases. -/
def linkFold (g : Graph) (ss : List Student) : Graph :=
  ss.foldl (fun h s => linkStudentCourses h s.student_id s.registered_courses) g

/-! ## Dictionary lemmas -/

/-- Looking up the key just assigned yields the assigned value. -/
theorem dget_dset_self {α : Type} (d : Dict α) (k : String) (v : α) :
    dget (dset d k v) k = some v := by
  induction d with
  | nil => simp [dget, dset]
  | cons p rest ih =>
    by_cases h : p.1 == k
    · simp [dset, h, dget]
    · simp [dset, h, dget, ih]

/-- Looking up a different key after an assignment is unaffected. -/
theorem dget_dset_ne {α : Type} (d : Dict α) (k k2 : String) (v : α) (hne : k2 ≠ k) :
    dget (dset d k v) k2 = dget d k2 := by
  induction d with
  | nil =>
    simp [dget, dset]
    exact fun h => absurd h.symm hne
  | cons p rest ih =>
    by_cases h : p.1 == k
    · have hp : p.1 = k := by simpa [beq_iff_eq] using h
      have hkk2 : ¬(k == k2) := by
        simp only [beq_iff_eq]
        exact fun h2 => hne h2.symm
      have hpk2 : ¬(p.1 == k2) := by rw [hp]; exact hkk2
      simp [dset, h, dget, hkk2, hpk2]
    · by_cases h2 : p.1 == k2
      · simp [dset, h, dget, h2]
      · simp [dset, h, dget, h2, ih]

/-- Re-assigning the value a key already holds leaves the dictionary unchanged. -/
theorem dset_self {α : Type} (d : Dict α) (k : String) (v : α)
    (hv : dget d k = some v) : dset d k v = d := by
  induction d with
  | nil => simp [dget] at hv
  | cons p rest ih =>
    obtain ⟨k1, v1⟩ := p
    by_cases h : k1 == k
    · simp [dget, h] at hv
      have hk : k1 = k := by simpa [beq_iff_eq] using h
      simp [dset, h, hk, hv]
    · simp [dget, h] at hv
      simp [dset, h, ih hv]

/-- A successful lookup exhibits a member of the dictionary. -/
theorem dget_mem {α : Type} (d : Dict α) (k : String) (v : α)
    (hv : dget d k = some v) : (k, v) ∈ d := by
  induction d with
  | nil => simp [dget] at hv
  | cons p rest ih =>
    obtain ⟨k1, v1⟩ := p
    by_cases h : k1 == k
    · have hk : k1 = k := by simpa [beq_iff_eq] using h
      have hv2 : v1 = v := by simpa [dget, h] using hv
      rw [List.mem_cons]
      left
      rw [hk, hv2]
    · rw [List.mem_cons]
      right
      exact ih (by simpa [dget, h] using hv)

/-- Lookup of a key that is absent from the key list fails. -/
theorem dget_of_not_mem_keys {α : Type} (d : Dict α) (k : String)
    (h : k ∉ d.map Prod.fst) : dget d k = none := by
  induction d with
  | nil => rfl
  | cons p rest ih =>
    simp only [List.map_cons, List.mem_cons] at h
    push_neg at h
    have hne : ¬(p.1 == k) := by
      simp only [beq_iff_eq]
      exact fun he => h.1 he.symm
    simp [dget, hne, ih h.2]

/-- Deleting a key removes it from a dictionary with duplicate-free keys. -/
theorem dget_ddel_self {α : Type} (d : Dict α) (k : String)
    (hnd : (d.map Prod.fst).Nodup) : dget (ddel d k) k = none := by
  induction d with
  | nil => simp [dget, ddel]
  | cons p rest ih =>
    simp only [List.map_cons, List.nodup_cons] at hnd
    by_cases h : p.1 == k
    · have hk : p.1 = k := by simpa [beq_iff_eq] using h
      simp only [ddel, h, if_pos]
      exact dget_of_not_mem_keys rest k (hk ▸ hnd.1)
    · simp [ddel, h, dget, ih hnd.2]

/-- Deleting one key leaves lookups of other keys unchanged. -/
theorem dget_ddel_ne {α : Type} (d : Dict α) (k k2 : String) (hne : k2 ≠ k) :
    dget (ddel d k) k2 = dget d k2 := by
  induction d with
  | nil => simp [ddel]
  | cons p rest ih =>
    by_cases h : p.1 == k
    · have hk : p.1 = k := by simpa [beq_iff_eq] using h
      have : ¬(p.1 == k2) := by
        simp only [beq_iff_eq, hk]
        exact fun h2 => hne h2.symm
      simp [ddel, h, dget, this]
    · simp [ddel, h, dget, ih]

/-- Assigning over an existing key preserves the key list. -/
theorem dkeys_dset {α : Type} (d : Dict α) (k : String) (v w : α)
    (hv : dget d k = some v) : (dset d k w).map Prod.fst = d.map Prod.fst := by
  induction d with
  | nil => simp [dget] at hv
  | cons p rest ih =>
    by_cases h : p.1 == k
    · have hk : p.1 = k := by simpa [beq_iff_eq] using h
      simp [dset, h, hk]
    · simp [dget, h] at hv
      simp [dset, h, ih hv]

/-- Membership and lookup agree on dictionaries with duplicate-free keys. -/
theorem mem_iff_dget {α : Type} (d : Dict α) (hnd : (d.map Prod.fst).Nodup)
    (k : String) (v : α) : (k, v) ∈ d ↔ dget d k = some v := by
  constructor
  · intro hm
    induction d with
    | nil => simp at hm
    | cons p rest ih =>
      simp only [List.map_cons, List.nodup_cons] at hnd
      rcases List.mem_cons.mp hm with he | ht
      · rw [← he]
        simp [dget]
      · have hne : p.1 ≠ k := by
          intro hpk
          exact hnd.1 (hpk ▸ (List.mem_map.mpr ⟨(k, v), ht, rfl⟩))
        have hne2 : ¬(p.1 == k) := by simpa [beq_iff_eq] using hne
        simp only [dget, hne2]
        simp only [Bool.false_eq_true, if_false]
        exact ih hnd.2 ht
  · exact dget_mem d k v

/-- The student loop of `remove_course` succeeds and erases the course from
exactly the processed students when every processed student is present and
registered in the course. -/
theorem detachStudents_spec (sids : List String) (d : Dict Student) (cid : String)
    (hnd : sids.Nodup)
    (h : ∀ sid ∈ sids, ∃ s, dget d sid = some s ∧ cid ∈ s.registered_courses) :
    (MemoryDataManager.detachStudents d sids cid).2 = none ∧
    (MemoryDataManager.detachStudents d sids cid).1.map Prod.fst = d.map Prod.fst ∧
    (∀ k, k ∉ sids → dget (MemoryDataManager.detachStudents d sids cid).1 k = dget d k) ∧
    (∀ k ∈ sids, dget (MemoryDataManager.detachStudents d sids cid).1 k =
      (dget d k).map
        (fun s => { s with registered_courses := s.registered_courses.erase cid })) := by
  induction sids generalizing d with
  | nil =>
    refine ⟨rfl, rfl, fun k _ => rfl, fun k hk => absurd hk (List.not_mem_nil k)⟩
  | cons sid rest ih =>
    obtain ⟨s, hs, hreg⟩ := h sid (List.mem_cons_self _ _)
    have hcont : s.registered_courses.contains cid = true := by
      simpa using hreg
    simp only [List.nodup_cons] at hnd
    have hstep : MemoryDataManager.detachStudents d (sid :: rest) cid =
        MemoryDataManager.detachStudents
          (dset d sid { s with registered_courses := s.registered_courses.erase cid })
          rest cid := by
      simp [MemoryDataManager.detachStudents, hs, hcont, hreg]
    set s2 : Student := { s with registered_courses := s.registered_courses.erase cid } with hs2
    set d2 : Dict Student := dset d sid s2 with hd2
    have hrest : ∀ sid2 ∈ rest, ∃ t, dget d2 sid2 = some t ∧ cid ∈ t.registered_courses := by
      intro sid2 hm
      have hne : sid2 ≠ sid := fun he => hnd.1 (he ▸ hm)
      obtain ⟨t, ht, htr⟩ := h sid2 (List.mem_cons_of_mem _ hm)
      exact ⟨t, by rw [hd2, dget_dset_ne d sid sid2 s2 hne]; exact ht, htr⟩
    obtain ⟨ih1, ih2, ih3, ih4⟩ := ih d2 hnd.2 hrest
    rw [hstep]
    refine ⟨ih1, ?_, ?_, ?_⟩
    · rw [ih2, hd2, dkeys_dset d sid s s2 hs]
    · intro k hk
      simp only [List.mem_cons] at hk
      push_neg at hk
      rw [ih3 k hk.2, hd2, dget_dset_ne d sid k s2 hk.1]
    · intro k hk
      rcases List.mem_cons.mp hk with he | ht
      · subst he
        rw [ih3 k hnd.1, hd2, dget_dset_self, hs]
        simp
      · rw [ih4 k ht]
        have hne : k ≠ sid := fun he => hnd.1 (he ▸ ht)
        rw [hd2, dget_dset_ne d sid k s2 hne]

/-! ## Claim C5 -/

/-- C5: on a graph satisfying the data-model invariants around a present
course, `remove_course` succeeds, detaches the course from its instructor's
assigned list and from every student's registered list, deletes no student and
no instructor, and a subsequent `get_course` fails with the not-found error. -/
theorem C5_remove_course_cascade_detach (g : Graph) (cid : String) (c : Course)
    (hc : dget g.courses cid = some c)
    (hkeyc : cid = c.course_id)
    (hnodupC : (g.courses.map Prod.fst).Nodup)
    (hnodupS : (g.students.map Prod.fst).Nodup)
    (i : Instructor) (hi : dget g.instructors c.instructor_id = some i)
    (hass : c.course_id ∈ i.assigned_courses)
    (hassnd : i.assigned_courses.Nodup)
    (henrnd : c.enrolled_students.Nodup)
    (henrp : ∀ sid ∈ c.enrolled_students, (dget g.students sid).isSome = true)
    (hsym : ∀ p ∈ g.students,
      (p.1 ∈ c.enrolled_students → c.course_id ∈ p.2.registered_courses) ∧
      (c.course_id ∈ p.2.registered_courses → p.1 ∈ c.enrolled_students) ∧
      p.2.registered_courses.Nodup) :
    (MemoryDataManager.remove_course g cid).2 = none ∧
    MemoryDataManager.get_course (MemoryDataManager.remove_course g cid).1 c.course_id
      = .error .notFound ∧
    (MemoryDataManager.remove_course g cid).1.students.map Prod.fst
      = g.students.map Prod.fst ∧
    (MemoryDataManager.remove_course g cid).1.instructors.map Prod.fst
      = g.instructors.map Prod.fst ∧
    dget (MemoryDataManager.remove_course g cid).1.instructors c.instructor_id =
      some ({ i with assigned_courses := i.assigned_courses.erase c.course_id }) ∧
    c.course_id ∉ i.assigned_courses.erase c.course_id ∧
    (∀ p ∈ (MemoryDataManager.remove_course g cid).1.students,
      c.course_id ∉ p.2.registered_courses) := by
  have hcont : i.assigned_courses.contains c.course_id = true := by
    simpa using hass
  set i2 : Instructor := { i with assigned_courses := i.assigned_courses.erase c.course_id }
    with hi2
  set g1 : Graph := { g with instructors := dset g.instructors c.instructor_id i2 } with hg1
  have hdet := detachStudents_spec c.enrolled_students g.students c.course_id henrnd
    (by
      intro sid hm
      obtain ⟨s, hs⟩ := Option.isSome_iff_exists.mp (henrp sid hm)
      exact ⟨s, hs, ((hsym (sid, s) (dget_mem _ _ _ hs)).1 hm)⟩)
  obtain ⟨hd1, hd2, hd3, hd4⟩ := hdet
  have hrun : MemoryDataManager.remove_course g cid =
      ({ g1 with
          students := (MemoryDataManager.detachStudents g.students c.enrolled_students
            c.course_id).1,
          courses := ddel g1.courses cid }, none) := by
    simp only [MemoryDataManager.remove_course, hc, hi, hcont, if_pos]
    cases hsplit : MemoryDataManager.detachStudents g.students c.enrolled_students c.course_id
      with
    | mk d e =>
      cases e with
      | none => rfl
      | some err =>
        rw [hsplit] at hd1
        simp at hd1
  rw [hrun]
  refine ⟨rfl, ?_, by simpa using hd2, ?_, ?_, ?_, ?_⟩
  · have : dget (ddel g1.courses cid) c.course_id = none := by
      rw [← hkeyc]
      exact dget_ddel_self g1.courses cid (by simpa [hg1] using hnodupC)
    simp [MemoryDataManager.get_course, this]
  · simpa [hg1] using dkeys_dset g.instructors c.instructor_id i i2 hi
  · simp only [hg1]
    exact dget_dset_self g.instructors c.instructor_id i2
  · exact fun hmem => (List.Nodup.mem_erase_iff hassnd).mp hmem |>.1 rfl
  · intro p hp
    have hkeys : ((MemoryDataManager.detachStudents g.students c.enrolled_students
        c.course_id).1.map Prod.fst).Nodup := by
      rw [hd2]; exact hnodupS
    have hpg : dget (MemoryDataManager.detachStudents g.students c.enrolled_students
        c.course_id).1 p.1 = some p.2 := by
      rw [← mem_iff_dget _ hkeys p.1 p.2]
      exact (by simpa using hp)
    by_cases hin : p.1 ∈ c.enrolled_students
    · rw [hd4 p.1 hin] at hpg
      cases hq : dget g.students p.1 with
      | none => rw [hq] at hpg; simp at hpg
      | some q =>
        rw [hq] at hpg
        simp only [Option.map_some'] at hpg
        have hqn : q.registered_courses.Nodup := (hsym (p.1, q) (dget_mem _ _ _ hq)).2.2
        have hpq : ({ q with registered_courses := q.registered_courses.erase c.course_id }
            : Student) = p.2 := Option.some.inj hpg
        have hfield : p.2.registered_courses = q.registered_courses.erase c.course_id := by
          rw [← hpq]
        intro habs
        rw [hfield] at habs
        exact (List.Nodup.mem_erase_iff hqn).mp habs |>.1 rfl
    · rw [hd3 p.1 hin] at hpg
      intro habs
      exact hin ((hsym (p.1, p.2) (dget_mem _ _ _ hpg)).2.1 habs)

/-- C5 witness: the cascade-detach hypotheses and conclusion at the example
graph, removing course `EECE230`. -/
theorem C5_remove_course_cascade_detach_witness :
    dget exGraph.courses "EECE230" = some exCourse ∧
    ("EECE230" : String) = exCourse.course_id ∧
    (exGraph.courses.map Prod.fst).Nodup ∧
    (exGraph.students.map Prod.fst).Nodup ∧
    dget exGraph.instructors exCourse.instructor_id = some exAlice ∧
    exCourse.course_id ∈ exAlice.assigned_courses ∧
    exAlice.assigned_courses.Nodup ∧
    exCourse.enrolled_students.Nodup ∧
    (∀ sid ∈ exCourse.enrolled_students, (dget exGraph.students sid).isSome = true) ∧
    (∀ p ∈ exGraph.students,
      (p.1 ∈ exCourse.enrolled_students → exCourse.course_id ∈ p.2.registered_courses) ∧
      (exCourse.course_id ∈ p.2.registered_courses → p.1 ∈ exCourse.enrolled_students) ∧
      p.2.registered_courses.Nodup) ∧
    ((MemoryDataManager.remove_course exGraph "EECE230").2 = none ∧
     MemoryDataManager.get_course (MemoryDataManager.remove_course exGraph "EECE230").1
       exCourse.course_id = .error .notFound ∧
     (MemoryDataManager.remove_course exGraph "EECE230").1.students.map Prod.fst
       = exGraph.students.map Prod.fst ∧
     (MemoryDataManager.remove_course exGraph "EECE230").1.instructors.map Prod.fst
       = exGraph.instructors.map Prod.fst ∧
     dget (MemoryDataManager.remove_course exGraph "EECE230").1.instructors
       exCourse.instructor_id =
       some ({ exAlice with
               assigned_courses := exAlice.assigned_courses.erase exCourse.course_id }) ∧
     exCourse.course_id ∉ exAlice.assigned_courses.erase exCourse.course_id ∧
     (∀ p ∈ (MemoryDataManager.remove_course exGraph "EECE230").1.students,
       exCourse.course_id ∉ p.2.registered_courses)) :=
  ⟨by decide, by decide, by decide, by decide, by decide, by decide, by decide, by decide,
   by decide, by decide,
   C5_remove_course_cascade_detach exGraph "EECE230" exCourse (by decide) (by decide)
     (by decide) (by decide) exAlice (by decide) (by decide) (by decide) (by decide)
     (by decide) (by decide)⟩

/-! ## Enrollment idempotence lemmas -/

/-- The enrolled-student guard never changes the course's identifier. -/
theorem Course.add_student_course_id (c : Course) (sid : String) :
    (c.add_student sid).course_id = c.course_id := by
  unfold Course.add_student
  split <;> rfl

/-- Enrolling a pair whose course is already registered is a complete no-op. -/
theorem enroll_student_noop (g : Graph) (sid cid : String) (s : Student) (c : Course)
    (hs : dget g.students sid = some s) (hc : dget g.courses cid = some c)
    (hin : c.course_id ∈ s.registered_courses) :
    MemoryDataManager.enroll_student g sid cid = (g, none) := by
  have hcont : s.registered_courses.contains c.course_id = true := by
    simpa using hin
  have hreg : s.register_course c = (s, c) := by
    simp [Student.register_course, hcont, hin]
  simp [MemoryDataManager.enroll_student, hs, hc, hreg, dset_self _ _ _ hs,
    dset_self _ _ _ hc]

/-- Calling `enroll_student` twice produces exactly the state and outcome of
calling it once, on every graph. -/
theorem enroll_student_twice (g : Graph) (sid cid : String) :
    MemoryDataManager.enroll_student (MemoryDataManager.enroll_student g sid cid).1 sid cid
      = MemoryDataManager.enroll_student g sid cid := by
  cases hs : dget g.students sid with
  | none => simp [MemoryDataManager.enroll_student, hs]
  | some s =>
    cases hc : dget g.courses cid with
    | none => simp [MemoryDataManager.enroll_student, hs, hc]
    | some c =>
      by_cases hin : c.course_id ∈ s.registered_courses
      · have h1 := enroll_student_noop g sid cid s c hs hc hin
        rw [h1]
        simpa using h1
      · have hcont : s.registered_courses.contains c.course_id = false := by
          simpa using hin
        have hreg : s.register_course c =
            ({ s with registered_courses := s.registered_courses ++ [c.course_id] },
             c.add_student s.student_id) := by
          simp [Student.register_course, hcont, hin]
        set s2 : Student :=
          { s with registered_courses := s.registered_courses ++ [c.course_id] } with hs2
        set c2 : Course := c.add_student s.student_id with hc2
        have h1 : MemoryDataManager.enroll_student g sid cid =
            ({ g with students := dset g.students sid s2, courses := dset g.courses cid c2 },
             none) := by
          simp [MemoryDataManager.enroll_student, hs, hc, hreg]
        rw [h1]
        have hs2get : dget (dset g.students sid s2) sid = some s2 := dget_dset_self _ _ _
        have hc2get : dget (dset g.courses cid c2) cid = some c2 := dget_dset_self _ _ _
        have hin2 : c2.course_id ∈ s2.registered_courses := by
          rw [hc2, Course.add_student_course_id, hs2]
          simp
        have hcont2 : s2.registered_courses.contains c2.course_id = true := by
          simpa using hin2
        have hreg2 : s2.register_course c2 = (s2, c2) := by
          simp [Student.register_course, hcont2, hin2]
        simp [MemoryDataManager.enroll_student, hs2get, hc2get, hreg2,
          dset_self _ _ _ hs2get, dset_self _ _ _ hc2get]

/-! ## Claim C1 -/

/-- C1 counterexample: in `exGraph` the student `202401111` is enrolled in
course `EECE230` taught by instructor `199801234`.  `remove_student` succeeds
but the remaining course still lists the removed student among its
`enrolled_students`, and `remove_instructor` succeeds while the remaining
course still references the removed instructor — so the removals do not sever
the relationship edges touching the removed entity, contradicting the claim. -/
theorem C1_remove_leaves_dangling_edges :
    (MemoryDataManager.remove_student exGraph "202401111").2 = none ∧
    dget (MemoryDataManager.remove_student exGraph "202401111").1.students "202401111" = none ∧
    (MemoryDataManager.remove_student exGraph "202401111").1.enrolledIn "EECE230" "202401111"
      = true ∧
    (MemoryDataManager.remove_instructor exGraph "199801234").2 = none ∧
    dget (MemoryDataManager.remove_instructor exGraph "199801234").1.instructors "199801234"
      = none ∧
    (MemoryDataManager.remove_instructor exGraph "199801234").1.courseInstructor "EECE230"
      = some "199801234" := by decide

/-- C1 (amended): `remove_student` and `remove_instructor` on the in-memory
manager delete only the entity's own dictionary entry and sever no
relationship edge: the other two dictionaries are untouched, so remaining
courses may keep the removed student in `enrolled_students` and may keep
referencing the removed instructor. -/
theorem C1_remove_deletes_only_the_entry (g : Graph) (sid iid : String) (s : Student)
    (i : Instructor) (hs : dget g.students sid = some s)
    (hi : dget g.instructors iid = some i) :
    MemoryDataManager.remove_student g sid =
      ({ g with students := ddel g.students sid }, none) ∧
    MemoryDataManager.remove_instructor g iid =
      ({ g with instructors := ddel g.instructors iid }, none) := by
  constructor
  · simp [MemoryDataManager.remove_student, hs]
  · simp [MemoryDataManager.remove_instructor, hi]

/-- C1 witness: the amended removal behaviour at the example graph. -/
theorem C1_remove_deletes_only_the_entry_witness :
    dget exGraph.students "202401111" = some exJohn ∧
    dget exGraph.instructors "199801234" = some exAlice ∧
    (MemoryDataManager.remove_student exGraph "202401111" =
      ({ exGraph with students := ddel exGraph.students "202401111" }, none) ∧
     MemoryDataManager.remove_instructor exGraph "199801234" =
      ({ exGraph with instructors := ddel exGraph.instructors "199801234" }, none)) :=
  ⟨by decide, by decide,
   C1_remove_deletes_only_the_entry exGraph "202401111" "199801234" exJohn exAlice
     (by decide) (by decide)⟩

/-! ## Claim C2 -/

/-- C2 counterexample: reassigning the instructor of `EECE230` from
`199801234` to `199805678` through `edit_course` succeeds and changes the
course's instructor reference, but the course remains in the old instructor's
`assigned_courses` and is absent from the new instructor's `assigned_courses`,
contradicting the claim. -/
theorem C2_edit_course_leaves_assignment_sets_stale :
    (MemoryDataManager.edit_course exGraph (some "EECE230") none (some "199805678")).2
      = none ∧
    (MemoryDataManager.edit_course exGraph (some "EECE230") none
      (some "199805678")).1.courseInstructor "EECE230" = some "199805678" ∧
    (MemoryDataManager.edit_course exGraph (some "EECE230") none
      (some "199805678")).1.assignedIn "199801234" "EECE230" = true ∧
    (MemoryDataManager.edit_course exGraph (some "EECE230") none
      (some "199805678")).1.assignedIn "199805678" "EECE230" = false := by decide

/-- C2 (amended): on the in-memory manager, `edit_course` with an
`instructor` field merely replaces the course's instructor reference; the
instructor dictionary — hence both the old and the new instructor's
`assigned_courses` — is left completely unchanged. -/
theorem C2_edit_course_changes_reference_only (g : Graph) (cid : String) (hcid : cid ≠ "")
    (c : Course) (hc : dget g.courses cid = some c) (iid : String) :
    MemoryDataManager.edit_course g (some cid) none (some iid) =
      ({ g with courses := dset g.courses cid ({ c with instructor_id := iid }) }, none) ∧
    (MemoryDataManager.edit_course g (some cid) none (some iid)).1.instructors
      = g.instructors := by
  have hupd : c.update none (some iid) = ({ c with instructor_id := iid }, none) := by
    simp [Course.update, truthyStr]
  constructor
  · simp [MemoryDataManager.edit_course, truthyStr, hcid, hc, hupd]
  · simp [MemoryDataManager.edit_course, truthyStr, hcid, hc, hupd]

/-- C2 witness: the amended reassignment behaviour at the example graph. -/
theorem C2_edit_course_changes_reference_only_witness :
    ("EECE230" : String) ≠ "" ∧
    dget exGraph.courses "EECE230" = some exCourse ∧
    (MemoryDataManager.edit_course exGraph (some "EECE230") none (some "199805678") =
      ({ exGraph with
          courses := dset exGraph.courses "EECE230" ({ exCourse with instructor_id := "199805678" }) }, none) ∧
     (MemoryDataManager.edit_course exGraph (some "EECE230") none
        (some "199805678")).1.instructors = exGraph.instructors) :=
  ⟨by decide, by decide,
   C2_edit_course_changes_reference_only exGraph "EECE230" (by decide) exCourse (by decide)
     "199805678"⟩

/-! ## Claim C4 -/

/-- C4 counterexample: adding a course whose ID `EECE230` is already taken,
passing the other instructor `199805678`, fails with the already-exists
`DataError` as claimed — but the graph is not left as it was: the passed
instructor's `assigned_courses` has gained the duplicate course ID, because
the `Course` constructor registers itself with its instructor before the
duplicate check runs. -/
theorem C4_failed_add_course_mutates_instructor :
    (MemoryDataManager.add_course exGraph "EECE230" "Other Name Here" "199805678").2
      = some DErr.alreadyExists ∧
    exGraph.assignedIn "199805678" "EECE230" = false ∧
    (MemoryDataManager.add_course exGraph "EECE230" "Other Name Here"
      "199805678").1.assignedIn "199805678" "EECE230" = true ∧
    (MemoryDataManager.add_course exGraph "EECE230" "Other Name Here" "199805678").1
      ≠ exGraph := by decide

/-- C4 (amended): `add_student` and `add_instructor` with an ID already
present fail with the already-exists `DataError` and leave the graph exactly
as it was; `add_course` with an ID already present also fails with the
already-exists `DataError` and creates no course, but before the check the
`Course` constructor registers the course with the instructor passed in, so
that instructor's `assigned_courses` may gain the duplicate course ID. -/
theorem C4_duplicate_add_fails (g : Graph)
    (snm : String) (sag : Int) (sem spid : String)
    (inm : String) (iag : Int) (iem ipid : String)
    (cid cname ikey : String)
    (s : Student) (hs1 : Student.make snm sag sem spid = .ok s)
    (hs2 : dcontains g.students s.student_id = true)
    (i0 : Instructor) (hi1 : Instructor.make inm iag iem ipid = .ok i0)
    (hi2 : dcontains g.instructors i0.instructor_id = true)
    (ii : Instructor) (hk : dget g.instructors ikey = some ii)
    (c : Course) (hc1 : Course.make cid cname ii.instructor_id = .ok c)
    (hc2 : dcontains g.courses c.course_id = true) :
    MemoryDataManager.add_student g snm sag sem spid = (g, some DErr.alreadyExists) ∧
    MemoryDataManager.add_instructor g inm iag iem ipid = (g, some DErr.alreadyExists) ∧
    MemoryDataManager.add_course g cid cname ikey =
      ({ g with instructors := dset g.instructors ikey (ii.assign_course c.course_id) },
       some DErr.alreadyExists) := by
  refine ⟨?_, ?_, ?_⟩
  · simp [MemoryDataManager.add_student, hs1, hs2]
  · simp [MemoryDataManager.add_instructor, hi1, hi2]
  · simp [MemoryDataManager.add_course, hk, hc1, hc2]

/-- C4 witness: all the duplicate-add hypotheses hold together at the example
graph (duplicate student ID, duplicate instructor ID, duplicate course ID
passed with the second instructor). -/
theorem C4_duplicate_add_fails_witness :
    Student.make "John Doe" 20 "john@mail.com" "202401111" =
      .ok ⟨"John Doe", 20, "john@mail.com", "202401111", []⟩ ∧
    dcontains exGraph.students "202401111" = true ∧
    Instructor.make "Alice Smith" 45 "alice@univ.edu" "199801234" =
      .ok ⟨"Alice Smith", 45, "alice@univ.edu", "199801234", []⟩ ∧
    dcontains exGraph.instructors "199801234" = true ∧
    dget exGraph.instructors "199805678" = some exBob ∧
    Course.make "EECE230" "Other Name Here" "199805678" =
      .ok ⟨"EECE230", "Other Name Here", "199805678", []⟩ ∧
    dcontains exGraph.courses "EECE230" = true ∧
    (MemoryDataManager.add_student exGraph "John Doe" 20 "john@mail.com" "202401111"
       = (exGraph, some DErr.alreadyExists) ∧
     MemoryDataManager.add_instructor exGraph "Alice Smith" 45 "alice@univ.edu" "199801234"
       = (exGraph, some DErr.alreadyExists) ∧
     MemoryDataManager.add_course exGraph "EECE230" "Other Name Here" "199805678" =
      ({ exGraph with
          instructors := dset exGraph.instructors "199805678" (exBob.assign_course "EECE230") },
       some DErr.alreadyExists)) :=
  ⟨by decide, by decide, by decide, by decide, by decide, by decide, by decide,
   C4_duplicate_add_fails exGraph "John Doe" 20 "john@mail.com" "202401111"
     "Alice Smith" 45 "alice@univ.edu" "199801234" "EECE230" "Other Name Here" "199805678"
     ⟨"John Doe", 20, "john@mail.com", "202401111", []⟩ (by decide) (by decide)
     ⟨"Alice Smith", 45, "alice@univ.edu", "199801234", []⟩ (by decide) (by decide)
     exBob (by decide)
     ⟨"EECE230", "Other Name Here", "199805678", []⟩ (by decide) (by decide)⟩

/-! ## Claim C10 -/

/-- C10: on the in-memory manager, editing an existing student's or
instructor's `age` to `0` succeeds and is a complete no-op — the graph is
returned unchanged with no error — even though the validator accepts `0`
(`check_age 0 = true`): `Person.update` guards each field with Python
truthiness, and `0` is falsy. -/
theorem C10_edit_age_zero_is_silent_noop (g : Graph) (sid : String) (hsid : sid ≠ "")
    (s : Student) (hs : dget g.students sid = some s)
    (iid : String) (hiid : iid ≠ "") (i : Instructor)
    (hi : dget g.instructors iid = some i) :
    MemoryDataManager.edit_student g (some sid) none (some 0) none = (g, none) ∧
    MemoryDataManager.edit_instructor g (some iid) none (some 0) none = (g, none) ∧
    check_age 0 = true := by
  refine ⟨?_, ?_, by decide⟩
  · have hupd : s.update none (some 0) none = (s, none) := by
      simp [Student.update, truthyStr, truthyInt]
    simp [MemoryDataManager.edit_student, truthyStr, hsid, hs, hupd, dset_self _ _ _ hs]
  · have hupd : i.update none (some 0) none = (i, none) := by
      simp [Instructor.update, truthyStr, truthyInt]
    simp [MemoryDataManager.edit_instructor, truthyStr, hiid, hi, hupd, dset_self _ _ _ hi]

/-- C10 witness: the silent no-op at the example graph. -/
theorem C10_edit_age_zero_is_silent_noop_witness :
    ("202401111" : String) ≠ "" ∧
    dget exGraph.students "202401111" = some exJohn ∧
    ("199801234" : String) ≠ "" ∧
    dget exGraph.instructors "199801234" = some exAlice ∧
    (MemoryDataManager.edit_student exGraph (some "202401111") none (some 0) none
       = (exGraph, none) ∧
     MemoryDataManager.edit_instructor exGraph (some "199801234") none (some 0) none
       = (exGraph, none) ∧
     check_age 0 = true) :=
  ⟨by decide, by decide, by decide, by decide,
   C10_edit_age_zero_is_silent_noop exGraph "202401111" (by decide) exJohn (by decide)
     "199801234" (by decide) exAlice (by decide)⟩

/-! ## Claim C3 -/

/-- C3 counterexample: on the database-backed manager, enrolling the
already-enrolled pair of `exDB` is not a no-op — the plain `INSERT` violates
the enrollments primary key and the manager raises the wrapped `DataError` —
refuting idempotence on both managers. -/
theorem C3_database_enroll_duplicate_errors :
    DatabaseDataManager.enroll_student ⟨exDB, none⟩ "202401111" "EECE230"
      = (⟨exDB, none⟩, some DErr.integrity) ∧
    ("202401111", "EECE230") ∈ exDB.enrollments ∧
    (DatabaseManager.get_student exDB "202401111").isSome = true ∧
    (DatabaseManager.get_course exDB "EECE230").isSome = true := by decide

/-- C3 (amended): on the in-memory manager `enroll` is idempotent — an
already-enrolled pair is a complete no-op with no error, and calling the
operation twice yields exactly the state and outcome of calling it once; on
the database-backed manager, enrolling an already-enrolled pair of existing
IDs raises the wrapped store error (`IntegrityError` from the enrollments
primary key) and leaves the store unchanged. -/
theorem C3_enroll_idempotent_only_in_memory (g : Graph) (sid cid : String)
    (s : Student) (c : Course)
    (hs : dget g.students sid = some s) (hc : dget g.courses cid = some c)
    (hin : c.course_id ∈ s.registered_courses)
    (st : DBState)
    (hdbs : (DatabaseManager.get_student st.db sid).isSome = true)
    (hdbc : (DatabaseManager.get_course st.db cid).isSome = true)
    (hdup : (sid, cid) ∈ st.db.enrollments) :
    MemoryDataManager.enroll_student g sid cid = (g, none) ∧
    MemoryDataManager.enroll_student (MemoryDataManager.enroll_student g sid cid).1 sid cid
      = MemoryDataManager.enroll_student g sid cid ∧
    DatabaseDataManager.enroll_student st sid cid = (st, some DErr.integrity) := by
  refine ⟨enroll_student_noop g sid cid s c hs hc hin, enroll_student_twice g sid cid, ?_⟩
  obtain ⟨rs, hrs⟩ := Option.isSome_iff_exists.mp hdbs
  obtain ⟨rc, hrc⟩ := Option.isSome_iff_exists.mp hdbc
  simp [DatabaseDataManager.enroll_student, hrs, hrc, DatabaseManager.enroll_student, hdup]

/-- C3 witness: the enrolled pair of the example graph and the example store. -/
theorem C3_enroll_idempotent_only_in_memory_witness :
    dget exGraph.students "202401111" = some exJohn ∧
    dget exGraph.courses "EECE230" = some exCourse ∧
    exCourse.course_id ∈ exJohn.registered_courses ∧
    (DatabaseManager.get_student exDB "202401111").isSome = true ∧
    (DatabaseManager.get_course exDB "EECE230").isSome = true ∧
    ("202401111", "EECE230") ∈ exDB.enrollments ∧
    (MemoryDataManager.enroll_student exGraph "202401111" "EECE230" = (exGraph, none) ∧
     MemoryDataManager.enroll_student
       (MemoryDataManager.enroll_student exGraph "202401111" "EECE230").1 "202401111" "EECE230"
       = MemoryDataManager.enroll_student exGraph "202401111" "EECE230" ∧
     DatabaseDataManager.enroll_student ⟨exDB, some exHyd⟩ "202401111" "EECE230"
       = (⟨exDB, some exHyd⟩, some DErr.integrity)) :=
  ⟨by decide, by decide, by decide, by decide, by decide, by decide,
   C3_enroll_idempotent_only_in_memory exGraph "202401111" "EECE230" exJohn exCourse
     (by decide) (by decide) (by decide) ⟨exDB, some exHyd⟩ (by decide) (by decide)
     (by decide)⟩

/-! ## Claim C9 -/

/-- C9 counterexample: with the store of `exDB` and a populated hydration
cache, `add_student` of a fresh student succeeds (the existence check passes
against the store) and `remove_course` of the present course succeeds, yet
neither call invalidates the cache — it still holds the old hydrated graph
afterwards, contradicting the claimed check-mutate-invalidate sequence. -/
theorem C9_mutators_do_not_invalidate_cache :
    hydrate exDB = .ok exHyd ∧
    (DatabaseDataManager.add_student ⟨exDB, some exHyd⟩ "Jane Roe" 22 "jane@mail.com"
      "202402222").2 = none ∧
    (DatabaseDataManager.add_student ⟨exDB, some exHyd⟩ "Jane Roe" 22 "jane@mail.com"
      "202402222").1.cache = some exHyd ∧
    (DatabaseDataManager.remove_course ⟨exDB, some exHyd⟩ "EECE230").2 = none ∧
    (DatabaseDataManager.remove_course ⟨exDB, some exHyd⟩ "EECE230").1.cache
      = some exHyd := by decide

/-- Cache-independence of `add_student`: the call only reads and writes the
store and carries the cache through. -/
theorem add_student_cache_free (db : DB) (cache : Option Graph) (nm : String) (ag : Int)
    (em sid : String) :
    DatabaseDataManager.add_student ⟨db, cache⟩ nm ag em sid =
      (⟨(DatabaseDataManager.add_student ⟨db, none⟩ nm ag em sid).1.db, cache⟩,
       (DatabaseDataManager.add_student ⟨db, none⟩ nm ag em sid).2) := by
  cases hm : Student.make nm ag em sid with
  | error e => simp [DatabaseDataManager.add_student, hm]
  | ok s =>
    cases hq : DatabaseManager.get_student db s.student_id with
    | some r => simp [DatabaseDataManager.add_student, hm, hq]
    | none =>
      cases ha : DatabaseManager.add_student db ⟨nm, ag, em, sid⟩ with
      | error e => simp [DatabaseDataManager.add_student, hm, hq, ha]
      | ok db2 => simp [DatabaseDataManager.add_student, hm, hq, ha]

/-- Cache-independence of `remove_course`. -/
theorem remove_course_cache_free (db : DB) (cache : Option Graph) (cid : String) :
    DatabaseDataManager.remove_course ⟨db, cache⟩ cid =
      (⟨(DatabaseDataManager.remove_course ⟨db, none⟩ cid).1.db, cache⟩,
       (DatabaseDataManager.remove_course ⟨db, none⟩ cid).2) := by
  cases hq : DatabaseManager.get_course db cid with
  | none => simp [DatabaseDataManager.remove_course, hq]
  | some r => simp [DatabaseDataManager.remove_course, hq]

/-- Cache-independence of the database-backed `enroll_student`. -/
theorem enroll_student_cache_free (db : DB) (cache : Option Graph) (sid cid : String) :
    DatabaseDataManager.enroll_student ⟨db, cache⟩ sid cid =
      (⟨(DatabaseDataManager.enroll_student ⟨db, none⟩ sid cid).1.db, cache⟩,
       (DatabaseDataManager.enroll_student ⟨db, none⟩ sid cid).2) := by
  cases hs : DatabaseManager.get_student db sid with
  | none => simp [DatabaseDataManager.enroll_student, hs]
  | some r =>
    cases hc : DatabaseManager.get_course db cid with
    | none => simp [DatabaseDataManager.enroll_student, hs, hc]
    | some r2 =>
      cases he : DatabaseManager.enroll_student db sid cid with
      | error e => simp [DatabaseDataManager.enroll_student, hs, hc, he]
      | ok db2 => simp [DatabaseDataManager.enroll_student, hs, hc, he]

/-- C9 (amended): every modelled mutating call checks existence through a
direct store query — its outcome and resulting store are independent of the
cache contents — and issues the row-level mutation, but none of them
invalidates the hydration cache; instead every read-through access clears the
cache unconditionally before hydrating, so its behaviour is also
cache-independent and it leaves the cache holding the fresh hydration. -/
theorem C9_mutators_check_store_and_leave_cache (db : DB) (cache : Option Graph)
    (nm : String) (ag : Int) (em : String) (sid : String) (cid : String)
    (sid2 cid2 : String) (g : Graph) (hg : hydrate db = .ok g) :
    (DatabaseDataManager.add_student ⟨db, cache⟩ nm ag em sid).1.cache = cache ∧
    (DatabaseDataManager.add_student ⟨db, cache⟩ nm ag em sid).2
      = (DatabaseDataManager.add_student ⟨db, none⟩ nm ag em sid).2 ∧
    (DatabaseDataManager.add_student ⟨db, cache⟩ nm ag em sid).1.db
      = (DatabaseDataManager.add_student ⟨db, none⟩ nm ag em sid).1.db ∧
    (DatabaseDataManager.remove_course ⟨db, cache⟩ cid).1.cache = cache ∧
    (DatabaseDataManager.remove_course ⟨db, cache⟩ cid).2
      = (DatabaseDataManager.remove_course ⟨db, none⟩ cid).2 ∧
    (DatabaseDataManager.remove_course ⟨db, cache⟩ cid).1.db
      = (DatabaseDataManager.remove_course ⟨db, none⟩ cid).1.db ∧
    (DatabaseDataManager.enroll_student ⟨db, cache⟩ sid2 cid2).1.cache = cache ∧
    (DatabaseDataManager.enroll_student ⟨db, cache⟩ sid2 cid2).2
      = (DatabaseDataManager.enroll_student ⟨db, none⟩ sid2 cid2).2 ∧
    DatabaseDataManager.get_students ⟨db, cache⟩
      = DatabaseDataManager.get_students ⟨db, none⟩ ∧
    DatabaseDataManager.get_students ⟨db, cache⟩
      = .ok (⟨db, some g⟩, dvalues g.students) := by
  have ha := add_student_cache_free db cache nm ag em sid
  have hr := remove_course_cache_free db cache cid
  have he := enroll_student_cache_free db cache sid2 cid2
  refine ⟨by rw [ha], by rw [ha], by rw [ha], by rw [hr], by rw [hr], by rw [hr],
          by rw [he], by rw [he], rfl, ?_⟩
  unfold DatabaseDataManager.get_students
  simp [hg]

/-- C9 witness: the amended cache discipline at the example store with a
populated cache. -/
theorem C9_mutators_check_store_and_leave_cache_witness :
    hydrate exDB = .ok exHyd ∧
    ((DatabaseDataManager.add_student ⟨exDB, some exHyd⟩ "Jane Roe" 22 "jane@mail.com"
        "202402222").1.cache = some exHyd ∧
     (DatabaseDataManager.add_student ⟨exDB, some exHyd⟩ "Jane Roe" 22 "jane@mail.com"
        "202402222").2
       = (DatabaseDataManager.add_student ⟨exDB, none⟩ "Jane Roe" 22 "jane@mail.com"
          "202402222").2 ∧
     (DatabaseDataManager.add_student ⟨exDB, some exHyd⟩ "Jane Roe" 22 "jane@mail.com"
        "202402222").1.db
       = (DatabaseDataManager.add_student ⟨exDB, none⟩ "Jane Roe" 22 "jane@mail.com"
          "202402222").1.db ∧
     (DatabaseDataManager.remove_course ⟨exDB, some exHyd⟩ "EECE230").1.cache = some exHyd ∧
     (DatabaseDataManager.remove_course ⟨exDB, some exHyd⟩ "EECE230").2
       = (DatabaseDataManager.remove_course ⟨exDB, none⟩ "EECE230").2 ∧
     (DatabaseDataManager.remove_course ⟨exDB, some exHyd⟩ "EECE230").1.db
       = (DatabaseDataManager.remove_course ⟨exDB, none⟩ "EECE230").1.db ∧
     (DatabaseDataManager.enroll_student ⟨exDB, some exHyd⟩ "202401111" "EECE230").1.cache
       = some exHyd ∧
     (DatabaseDataManager.enroll_student ⟨exDB, some exHyd⟩ "202401111" "EECE230").2
       = (DatabaseDataManager.enroll_student ⟨exDB, none⟩ "202401111" "EECE230").2 ∧
     DatabaseDataManager.get_students ⟨exDB, some exHyd⟩
       = DatabaseDataManager.get_students ⟨exDB, none⟩ ∧
     DatabaseDataManager.get_students ⟨exDB, some exHyd⟩
       = .ok (⟨exDB, some exHyd⟩, dvalues exHyd.students)) :=
  ⟨by decide,
   C9_mutators_check_store_and_leave_cache exDB (some exHyd) "Jane Roe" 22 "jane@mail.com"
     "202402222" "EECE230" "202401111" "EECE230" exHyd (by decide)⟩

/-! ## Claim C7 -/

/-- C7 counterexample: a missing file and an invalid JSON document leave the
graph empty but return normally — no failure reaches the caller — and a
document whose second instructor entry lacks its `name` key raises, leaving
the first instructor already loaded: the graph is partially populated.  Both
halves of the claim fail. -/
theorem C7_json_import_failure_handling_differs :
    load_from_json Graph.empty JsonInput.missing = (Graph.empty, none) ∧
    load_from_json Graph.empty JsonInput.invalid = (Graph.empty, none) ∧
    (load_from_json Graph.empty (.doc c7doc)).2 = some DErr.keyMissing ∧
    (load_from_json Graph.empty (.doc c7doc)).1 ≠ Graph.empty := by decide

/-- C7 (amended): on a missing file or invalid JSON the import leaves the
target graph empty but reports nothing to the caller (the failure is only
logged); a document entry with missing keys or invalid field values raises
instead, and the entities loaded before the failing entry remain, so the
graph can be left partially populated. -/
theorem C7_unreadable_json_is_silent_and_empty (g : Graph) (input : JsonInput)
    (h : input = JsonInput.missing ∨ input = JsonInput.invalid) :
    load_from_json g input = (Graph.empty, none) := by
  rcases h with h | h <;> subst h <;> rfl

/-- C7 witness: the silent empty result on a missing file. -/
theorem C7_unreadable_json_is_silent_and_empty_witness :
    (JsonInput.missing = JsonInput.missing ∨ JsonInput.missing = JsonInput.invalid) ∧
    load_from_json Graph.empty JsonInput.missing = (Graph.empty, none) :=
  ⟨Or.inl rfl, C7_unreadable_json_is_silent_and_empty Graph.empty JsonInput.missing
    (Or.inl rfl)⟩

/-! ## Claim C8 -/

/-- The CSV instructor loop cannot raise when every row constructs cleanly. -/
theorem loadCsvInstructorsLoop_ok (rows : List InstructorRow) (g : Graph)
    (h : ∀ r ∈ rows, (Instructor.make r.name r.age r.email r.instructor_id).isOk = true) :
    (loadCsvInstructorsLoop g rows).2 = none := by
  induction rows generalizing g with
  | nil => rfl
  | cons r rest ih =>
    have hr := h r (List.mem_cons_self _ _)
    cases hm : Instructor.make r.name r.age r.email r.instructor_id with
    | error e => rw [hm] at hr; simp [Except.isOk, Except.toBool] at hr
    | ok i =>
      simp only [loadCsvInstructorsLoop, hm]
      exact ih _ (fun r2 hr2 => h r2 (List.mem_cons_of_mem _ hr2))

/-- The CSV student loop cannot raise when every row constructs cleanly. -/
theorem loadCsvStudentsLoop_ok (rows : List StudentRow) (g : Graph)
    (h : ∀ r ∈ rows, (Student.make r.name r.age r.email r.student_id).isOk = true) :
    (loadCsvStudentsLoop g rows).2 = none := by
  induction rows generalizing g with
  | nil => rfl
  | cons r rest ih =>
    have hr := h r (List.mem_cons_self _ _)
    cases hm : Student.make r.name r.age r.email r.student_id with
    | error e => rw [hm] at hr; simp [Except.isOk, Except.toBool] at hr
    | ok s =>
      simp only [loadCsvStudentsLoop, hm]
      exact ih _ (fun r2 hr2 => h r2 (List.mem_cons_of_mem _ hr2))

/-- `Course.make` succeeds whenever the course ID and name validate. -/
theorem Course.make_ok_of_checks (cid cname iid : String)
    (h1 : check_course_id (pystrip cid) = true)
    (h2 : check_course_name (pystrip cname) = true) :
    Course.make cid cname iid =
      .ok ⟨pyupper (pystrip cid), cname, iid, []⟩ := by
  simp [Course.make, h1, h2]

/-- The CSV course loop cannot raise when every row's ID and name validate. -/
theorem loadCsvCoursesLoop_ok (rows : List CourseRow) (g : Graph)
    (h : ∀ r ∈ rows, check_course_id (pystrip r.course_id) = true ∧
      check_course_name (pystrip r.course_name) = true) :
    (loadCsvCoursesLoop g rows).2 = none := by
  induction rows generalizing g with
  | nil => rfl
  | cons r rest ih =>
    have hr := h r (List.mem_cons_self _ _)
    cases hi : dget g.instructors r.instructor_id with
    | none =>
      simp only [loadCsvCoursesLoop, hi]
      exact ih _ (fun r2 hr2 => h r2 (List.mem_cons_of_mem _ hr2))
    | some i =>
      simp only [loadCsvCoursesLoop, hi,
        Course.make_ok_of_checks r.course_id r.course_name i.instructor_id hr.1 hr.2]
      exact ih _ (fun r2 hr2 => h r2 (List.mem_cons_of_mem _ hr2))

/-- C8 counterexample: with `students.csv` missing but a bad row in
`instructors.csv`, the import raises on the bad row before discovering the
missing file and leaves the first instructor loaded — the graph is neither
empty nor free of entities loaded from the present files. -/
theorem C8_missing_file_after_bad_row_leaves_partial :
    c8files.students = none ∧
    (load_from_csv Graph.empty c8files).2 = some DErr.invalidName ∧
    (load_from_csv Graph.empty c8files).1 ≠ Graph.empty := by decide

/-- C8 (amended): when any of the four required files is missing and every
row of the present files read before it constructs cleanly (as all
export-produced rows do), the import aborts on the `FileNotFoundError`,
clears everything and returns the empty graph; a row that fails validation
raises first and leaves the graph partially populated instead. -/
theorem C8_missing_csv_file_aborts_empty (g : Graph) (files : CsvFiles)
    (hmiss : files.instructors = none ∨ files.students = none ∨ files.courses = none ∨
      files.enrollments = none)
    (hvi : ∀ r ∈ files.instructors.getD [],
      (Instructor.make r.name r.age r.email r.instructor_id).isOk = true)
    (hvs : ∀ r ∈ files.students.getD [],
      (Student.make r.name r.age r.email r.student_id).isOk = true)
    (hvc : ∀ r ∈ files.courses.getD [],
      check_course_id (pystrip r.course_id) = true ∧
      check_course_name (pystrip r.course_name) = true) :
    load_from_csv g files = (Graph.empty, none) := by
  cases hfi : files.instructors with
  | none => simp [load_from_csv, hfi]
  | some irows =>
    rw [hfi] at hvi
    simp only [Option.getD_some] at hvi
    have h1 := loadCsvInstructorsLoop_ok irows Graph.empty hvi
    cases hs1 : loadCsvInstructorsLoop Graph.empty irows with
    | mk g1 e1 =>
      rw [hs1] at h1
      simp only at h1
      subst h1
      cases hfs : files.students with
      | none => simp [load_from_csv, hfi, hs1, hfs]
      | some srows =>
        rw [hfs] at hvs
        simp only [Option.getD_some] at hvs
        have h2 := loadCsvStudentsLoop_ok srows g1 hvs
        cases hs2 : loadCsvStudentsLoop g1 srows with
        | mk g2 e2 =>
          rw [hs2] at h2
          simp only at h2
          subst h2
          cases hfc : files.courses with
          | none => simp [load_from_csv, hfi, hs1, hfs, hs2, hfc]
          | some crows =>
            rw [hfc] at hvc
            simp only [Option.getD_some] at hvc
            have h3 := loadCsvCoursesLoop_ok crows g2 hvc
            cases hs3 : loadCsvCoursesLoop g2 crows with
            | mk g3 e3 =>
              rw [hs3] at h3
              simp only at h3
              subst h3
              cases hfe : files.enrollments with
              | none => simp [load_from_csv, hfi, hs1, hfs, hs2, hfc, hs3, hfe]
              | some erows =>
                rw [hfi, hfs, hfc, hfe] at hmiss
                rcases hmiss with h | h | h | h <;> simp at h

/-- C8 witness: an instructors file with one valid row and the other three
files missing yields the empty graph with no error. -/
theorem C8_missing_csv_file_aborts_empty_witness :
    ((⟨some [⟨"Alice Smith", 45, "alice@univ.edu", "199801234"⟩], none, none, none⟩ :
        CsvFiles).instructors = none ∨
     (⟨some [⟨"Alice Smith", 45, "alice@univ.edu", "199801234"⟩], none, none, none⟩ :
        CsvFiles).students = none ∨
     (⟨some [⟨"Alice Smith", 45, "alice@univ.edu", "199801234"⟩], none, none, none⟩ :
        CsvFiles).courses = none ∨
     (⟨some [⟨"Alice Smith", 45, "alice@univ.edu", "199801234"⟩], none, none, none⟩ :
        CsvFiles).enrollments = none) ∧
    load_from_csv Graph.empty
      (⟨some [⟨"Alice Smith", 45, "alice@univ.edu", "199801234"⟩], none, none, none⟩ :
        CsvFiles) = (Graph.empty, none) :=
  ⟨Or.inr (Or.inl rfl),
   C8_missing_csv_file_aborts_empty Graph.empty _ (Or.inr (Or.inl rfl)) (by decide)
     (by decide) (by decide)⟩

/-! ## Auxiliary dictionary and constructor lemmas for the round trip -/

/-- Assigning a fresh key appends the binding. -/
theorem dset_fresh {α : Type} (d : Dict α) (k : String) (v : α)
    (h : k ∉ d.map Prod.fst) : dset d k v = d ++ [(k, v)] := by
  induction d with
  | nil => rfl
  | cons p rest ih =>
    simp only [List.map_cons, List.mem_cons] at h
    push_neg at h
    have hne : ¬(p.1 == k) := by
      simp only [beq_iff_eq]
      exact fun he => h.1 he.symm
    simp [dset, hne, ih h.2]

/-- A lookup succeeds exactly when the key occurs in the key list. -/
theorem dget_isSome_iff_mem_keys {α : Type} (d : Dict α) (k : String) :
    (dget d k).isSome = true ↔ k ∈ d.map Prod.fst := by
  induction d with
  | nil => simp [dget]
  | cons p rest ih =>
    by_cases h : p.1 == k
    · have hk : p.1 = k := by simpa [beq_iff_eq] using h
      simp [dget, h, hk]
    · have hk : p.1 ≠ k := by simpa [beq_iff_eq] using h
      simp only [dget, h, Bool.false_eq_true, if_false, List.map_cons, List.mem_cons, ih]
      constructor
      · exact fun hm => Or.inr hm
      · rintro (he | hm)
        · exact absurd he.symm hk
        · exact hm

/-- Members of a dictionary after an assignment. -/
theorem mem_dset_or {α : Type} (d : Dict α) (k : String) (v : α) (p : String × α)
    (hp : p ∈ dset d k v) : p = (k, v) ∨ p ∈ d := by
  induction d with
  | nil => simpa [dset] using hp
  | cons q rest ih =>
    by_cases h : q.1 == k
    · simp only [dset, h, if_pos] at hp
      rcases List.mem_cons.mp hp with he | ht
      · exact Or.inl he
      · exact Or.inr (List.mem_cons_of_mem _ ht)
    · simp only [dset, h] at hp
      rcases List.mem_cons.mp (by simpa using hp) with he | ht
      · exact Or.inr (he ▸ List.mem_cons_self _ _)
      · rcases ih ht with h2 | h2
        · exact Or.inl h2
        · exact Or.inr (List.mem_cons_of_mem _ h2)

/-- Assignment on a key present in the dictionary keeps the lookup defined. -/
theorem dget_dset_isSome_of {α : Type} (d : Dict α) (k k2 : String) (v : α)
    (h : (dget d k2).isSome = true) : (dget (dset d k v) k2).isSome = true := by
  by_cases he : k2 = k
  · subst he
    rw [dget_dset_self]
    rfl
  · rw [dget_dset_ne d k k2 v he]
    exact h

/-- Lookup in a dictionary built by mapping key and value functions over a
list with duplicate-free keys. -/
theorem dget_map_of_mem {α β : Type} (xs : List β) (key : β → String) (val : β → α)
    (hnd : (xs.map key).Nodup) (x : β) (hx : x ∈ xs) :
    dget (xs.map (fun y => (key y, val y))) (key x) = some (val x) := by
  induction xs with
  | nil => simp at hx
  | cons y ys ih =>
    simp only [List.map_cons, List.nodup_cons] at hnd
    rcases List.mem_cons.mp hx with he | ht
    · subst he
      simp [dget]
    · have hne : ¬(key y == key x) := by
        simp only [beq_iff_eq]
        intro he
        exact hnd.1 (he ▸ List.mem_map.mpr ⟨x, ht, rfl⟩)
      simp only [List.map_cons, dget, hne]
      simp only [Bool.false_eq_true, if_false]
      exact ih hnd.2 ht

/-- Lookup of an absent key in a mapped dictionary fails. -/
theorem dget_map_none {α β : Type} (xs : List β) (key : β → String) (val : β → α)
    (k : String) (hk : k ∉ xs.map key) :
    dget (xs.map (fun y => (key y, val y))) k = none := by
  apply dget_of_not_mem_keys
  simpa [List.map_map, Function.comp] using hk

/-- Key list of a dictionary whose entries carry their own keys. -/
theorem keys_eq_values_ids {α : Type} (d : Dict α) (f : α → String)
    (h : ∀ p ∈ d, p.1 = f p.2) : d.map Prod.fst = (d.map Prod.snd).map f := by
  induction d with
  | nil => rfl
  | cons p rest ih =>
    simp only [List.map_cons]
    rw [h p (List.mem_cons_self _ _)]
    rw [ih (fun q hq => h q (List.mem_cons_of_mem _ hq))]

/-- The student constructor reproduces a well-formed student (with an empty
registered list). -/
theorem studentMake_fields_ok (s : Student) (h : StudentFieldsOk s) :
    Student.make s.name s.age s.email s.student_id = .ok (resetS s) := by
  obtain ⟨h1, h2, h3, h4, h5, h6, h7⟩ := h
  simp [Student.make, resetS, h1, h2, h3, h4, h5, h6, h7]

/-- The instructor constructor reproduces a well-formed instructor (with an
empty assigned list). -/
theorem instructorMake_fields_ok (i : Instructor) (h : InstructorFieldsOk i) :
    Instructor.make i.name i.age i.email i.instructor_id = .ok (resetI i) := by
  obtain ⟨h1, h2, h3, h4, h5, h6, h7⟩ := h
  simp [Instructor.make, resetI, h1, h2, h3, h4, h5, h6, h7]

/-- The course constructor reproduces a well-formed course's scalar fields
under any instructor argument. -/
theorem courseMake_fields_ok (c : Course) (iid : String) (h : CourseFieldsOk c) :
    Course.make c.course_id c.course_name iid =
      .ok ⟨c.course_id, c.course_name, iid, []⟩ := by
  obtain ⟨h1, h2, h3, h4⟩ := h
  simp [Course.make, h1, h2, h3, h4]

/-! ## Phase lemmas for the import loops -/

/-- The instructor loop on exported well-formed entries appends each
instructor, reset to an empty assigned list, under its own ID. -/
theorem loadInstructorsLoop_spec (es : List Instructor) (g : Graph)
    (hok : ∀ i ∈ es, InstructorFieldsOk i)
    (hfresh : ∀ i ∈ es, i.instructor_id ∉ g.instructors.map Prod.fst)
    (hnd : (es.map Instructor.instructor_id).Nodup) :
    loadInstructorsLoop g (es.map Instructor.to_dict) =
      ({ g with
         instructors := g.instructors ++ es.map (fun i => (i.instructor_id, resetI i)) },
       none) := by
  induction es generalizing g with
  | nil => simp [loadInstructorsLoop]
  | cons i rest ih =>
    simp only [List.map_cons, List.nodup_cons] at hnd
    simp only [List.map_cons, loadInstructorsLoop, Instructor.to_dict,
      instructorMake_fields_ok i (hok i (List.mem_cons_self _ _))]
    rw [dset_fresh _ _ _ (hfresh i (List.mem_cons_self _ _))]
    rw [ih { g with instructors := g.instructors ++ [(i.instructor_id, resetI i)] }
      (fun j hj => hok j (List.mem_cons_of_mem _ hj))
      (by
        intro j hj
        simp only [List.map_append, List.mem_append, List.map_cons]
        push_neg
        refine ⟨hfresh j (List.mem_cons_of_mem _ hj), ?_⟩
        simp only [List.map_nil, List.mem_singleton]
        intro he
        exact hnd.1 (he ▸ List.mem_map.mpr ⟨j, hj, rfl⟩))
      hnd.2]
    simp

/-- The student loop on exported well-formed entries appends each student,
reset to an empty registered list, under its own ID. -/
theorem loadStudentsLoop_spec (es : List Student) (g : Graph)
    (hok : ∀ s ∈ es, StudentFieldsOk s)
    (hfresh : ∀ s ∈ es, s.student_id ∉ g.students.map Prod.fst)
    (hnd : (es.map Student.student_id).Nodup) :
    loadStudentsLoop g (es.map Student.to_dict) =
      ({ g with
         students := g.students ++ es.map (fun s => (s.student_id, resetS s)) },
       none) := by
  induction es generalizing g with
  | nil => simp [loadStudentsLoop]
  | cons s rest ih =>
    simp only [List.map_cons, List.nodup_cons] at hnd
    simp only [List.map_cons, loadStudentsLoop, Student.to_dict,
      studentMake_fields_ok s (hok s (List.mem_cons_self _ _))]
    rw [dset_fresh _ _ _ (hfresh s (List.mem_cons_self _ _))]
    rw [ih { g with students := g.students ++ [(s.student_id, resetS s)] }
      (fun j hj => hok j (List.mem_cons_of_mem _ hj))
      (by
        intro j hj
        simp only [List.map_append, List.mem_append, List.map_cons]
        push_neg
        refine ⟨hfresh j (List.mem_cons_of_mem _ hj), ?_⟩
        simp only [List.map_nil, List.mem_singleton]
        intro he
        exact hnd.1 (he ▸ List.mem_map.mpr ⟨j, hj, rfl⟩))
      hnd.2]
    simp [resetS]

/-- The course loop on exported well-formed entries appends each course,
reset to an empty enrolled list, under its own ID, and extends each
instructor's assigned list with exactly its own courses, in entry order. -/
theorem loadCoursesLoop_spec (cs : List Course) (g : Graph)
    (hok : ∀ c ∈ cs, CourseFieldsOk c)
    (hkeysI : ∀ p ∈ g.instructors, p.1 = p.2.instructor_id)
    (hpres : ∀ c ∈ cs, (dget g.instructors c.instructor_id).isSome = true)
    (hfreshC : ∀ c ∈ cs, c.course_id ∉ g.courses.map Prod.fst)
    (hndC : (cs.map Course.course_id).Nodup)
    (hnass : ∀ c ∈ cs, ∀ p ∈ g.instructors, c.course_id ∉ p.2.assigned_courses) :
    (loadCoursesLoop g (cs.map Course.to_dict)).2 = none ∧
    (loadCoursesLoop g (cs.map Course.to_dict)).1.students = g.students ∧
    (loadCoursesLoop g (cs.map Course.to_dict)).1.courses
      = g.courses ++ cs.map (fun c => (c.course_id, resetC c)) ∧
    (loadCoursesLoop g (cs.map Course.to_dict)).1.instructors.map Prod.fst
      = g.instructors.map Prod.fst ∧
    (∀ p ∈ (loadCoursesLoop g (cs.map Course.to_dict)).1.instructors,
      p.1 = p.2.instructor_id) ∧
    (∀ k, dget (loadCoursesLoop g (cs.map Course.to_dict)).1.instructors k
      = (dget g.instructors k).map (fun i =>
          { i with assigned_courses := i.assigned_courses
              ++ (cs.filter (fun c => c.instructor_id == k)).map Course.course_id })) := by
  induction cs generalizing g with
  | nil =>
    refine ⟨rfl, rfl, by simp [loadCoursesLoop], rfl, hkeysI, ?_⟩
    intro k
    simp [loadCoursesLoop]
  | cons c rest ih =>
    simp only [List.map_cons, List.nodup_cons] at hndC
    obtain ⟨i, hi⟩ := Option.isSome_iff_exists.mp (hpres c (List.mem_cons_self _ _))
    have hfield : c.instructor_id = i.instructor_id :=
      hkeysI (c.instructor_id, i) (dget_mem _ _ _ hi)
    have hmk : Course.make c.course_id c.course_name i.instructor_id =
        .ok (resetC c) := by
      rw [courseMake_fields_ok c i.instructor_id (hok c (List.mem_cons_self _ _))]
      rw [← hfield]
      rfl
    have hnotass : c.course_id ∉ i.assigned_courses :=
      hnass c (List.mem_cons_self _ _) (c.instructor_id, i) (dget_mem _ _ _ hi)
    have hassign : i.assign_course c.course_id =
        { i with assigned_courses := i.assigned_courses ++ [c.course_id] } := by
      simp [Instructor.assign_course, hnotass]
    have hrc : (resetC c).course_id = c.course_id := rfl
    have hstep : loadCoursesLoop g ((c :: rest).map Course.to_dict) =
        loadCoursesLoop
          { g with
            instructors := dset g.instructors c.instructor_id
              ({ i with assigned_courses := i.assigned_courses ++ [c.course_id] }),
            courses := dset g.courses c.course_id (resetC c) }
          (rest.map Course.to_dict) := by
      simp only [List.map_cons, loadCoursesLoop, Course.to_dict, hi, hmk, hrc, hassign]
    set i2 : Instructor := { i with assigned_courses := i.assigned_courses ++ [c.course_id] }
      with hi2def
    set g2 : Graph :=
      { g with
        instructors := dset g.instructors c.instructor_id i2,
        courses := dset g.courses c.course_id (resetC c) } with hg2def
    have hih := ih g2
      (fun c2 hc2 => hok c2 (List.mem_cons_of_mem _ hc2))
      (by
        intro p hp
        rcases mem_dset_or _ _ _ _ hp with he | hm
        · rw [he]
          exact hfield
        · exact hkeysI p hm)
      (by
        intro c2 hc2
        exact dget_dset_isSome_of _ _ _ _ (hpres c2 (List.mem_cons_of_mem _ hc2)))
      (by
        intro c2 hc2
        rw [hg2def]
        simp only
        rw [dset_fresh _ _ _ (hfreshC c (List.mem_cons_self _ _))]
        simp only [List.map_append, List.mem_append, List.map_cons, List.map_nil,
          List.mem_singleton]
        push_neg
        refine ⟨hfreshC c2 (List.mem_cons_of_mem _ hc2), ?_⟩
        intro he
        exact hndC.1 (he ▸ List.mem_map.mpr ⟨c2, hc2, rfl⟩))
      hndC.2
      (by
        intro c2 hc2 p hp
        rcases mem_dset_or _ _ _ _ hp with he | hm
        · rw [he]
          simp only [hi2def, List.mem_append, List.mem_singleton]
          push_neg
          refine ⟨hnass c2 (List.mem_cons_of_mem _ hc2) (c.instructor_id, i)
            (dget_mem _ _ _ hi), ?_⟩
          intro he2
          exact hndC.1 (he2 ▸ List.mem_map.mpr ⟨c2, hc2, rfl⟩)
        · exact hnass c2 (List.mem_cons_of_mem _ hc2) p hm)
    obtain ⟨hh1, hh2, hh3, hh4, hh5, hh6⟩ := hih
    rw [hstep]
    refine ⟨hh1, ?_, ?_, ?_, hh5, ?_⟩
    · rw [hh2]
    · rw [hh3]
      rw [hg2def]
      simp only
      rw [dset_fresh _ _ _ (hfreshC c (List.mem_cons_self _ _))]
      simp [List.append_assoc]
    · rw [hh4, hg2def]
      simp only
      exact dkeys_dset _ _ _ _ hi
    · intro k
      rw [hh6 k]
      by_cases hk : k = c.instructor_id
      · subst hk
        rw [hg2def]
        simp only
        rw [dget_dset_self, hi]
        rw [hi2def]
        simp [List.filter_cons, List.append_assoc]
      · rw [hg2def]
        simp only
        rw [dget_dset_ne _ _ _ _ hk]
        have hcne : ¬(c.instructor_id == k) = true := by
          simp only [beq_iff_eq]
          exact fun he => hk he.symm
        simp [List.filter_cons, hcne]

/-- Replaying one student's registered list appends each course to the
student, and the student to each course, exactly once. -/
theorem linkStudentCourses_spec (cids : List String) (g : Graph) (sid : String)
    (s0 : Student)
    (hs : dget g.students sid = some s0)
    (hkey : s0.student_id = sid)
    (hnd : cids.Nodup)
    (hfresh : ∀ cid ∈ cids, cid ∉ s0.registered_courses)
    (hpres : ∀ cid ∈ cids, ∃ c, dget g.courses cid = some c ∧ c.course_id = cid)
    (hnoenr : ∀ cid ∈ cids, ∀ c, dget g.courses cid = some c →
      sid ∉ c.enrolled_students) :
    (linkStudentCourses g sid cids).instructors = g.instructors ∧
    dget (linkStudentCourses g sid cids).students sid =
      some { s0 with registered_courses := s0.registered_courses ++ cids } ∧
    (∀ k, k ≠ sid → dget (linkStudentCourses g sid cids).students k = dget g.students k) ∧
    (linkStudentCourses g sid cids).students.map Prod.fst = g.students.map Prod.fst ∧
    (∀ k, dget (linkStudentCourses g sid cids).courses k =
      if k ∈ cids then
        (dget g.courses k).map
          (fun c => { c with enrolled_students := c.enrolled_students ++ [sid] })
      else dget g.courses k) ∧
    (linkStudentCourses g sid cids).courses.map Prod.fst = g.courses.map Prod.fst := by
  induction cids generalizing g s0 with
  | nil =>
    refine ⟨rfl, ?_, fun k _ => rfl, rfl, fun k => ?_, rfl⟩
    · simp [linkStudentCourses, hs]
    · simp [linkStudentCourses]
  | cons cid rest ih =>
    simp only [List.nodup_cons] at hnd
    obtain ⟨c, hc, hcid⟩ := hpres cid (List.mem_cons_self _ _)
    have hfr : cid ∉ s0.registered_courses := hfresh cid (List.mem_cons_self _ _)
    have hcont : s0.registered_courses.contains c.course_id = false := by
      rw [hcid]
      simpa using hfr
    have hne : sid ∉ c.enrolled_students := hnoenr cid (List.mem_cons_self _ _) c hc
    have hadd : c.add_student s0.student_id =
        { c with enrolled_students := c.enrolled_students ++ [sid] } := by
      rw [hkey]
      simp [Course.add_student, hne]
    have hreg : s0.register_course c =
        ({ s0 with registered_courses := s0.registered_courses ++ [cid] },
         { c with enrolled_students := c.enrolled_students ++ [sid] }) := by
      simp only [Student.register_course, hcont]
      rw [hadd, hcid]
      simp
    have hstep : linkStudentCourses g sid (cid :: rest) =
        linkStudentCourses
          { g with
            students := dset g.students sid
              ({ s0 with registered_courses := s0.registered_courses ++ [cid] }),
            courses := dset g.courses cid
              ({ c with enrolled_students := c.enrolled_students ++ [sid] }) }
          sid rest := by
      simp only [linkStudentCourses, hc, hs, hreg]
    set s1 : Student := { s0 with registered_courses := s0.registered_courses ++ [cid] }
      with hs1def
    set g2 : Graph :=
      { g with
        students := dset g.students sid s1,
        courses := dset g.courses cid
          ({ c with enrolled_students := c.enrolled_students ++ [sid] }) } with hg2def
    have hih := ih g2 s1 (by rw [hg2def]; exact dget_dset_self _ _ _) (by rw [hs1def]; exact hkey)
      hnd.2
      (by
        intro cid2 hc2
        rw [hs1def]
        simp only [List.mem_append, List.mem_singleton]
        push_neg
        refine ⟨hfresh cid2 (List.mem_cons_of_mem _ hc2), ?_⟩
        intro he
        exact hnd.1 (he ▸ hc2))
      (by
        intro cid2 hc2
        have hne2 : cid2 ≠ cid := fun he => hnd.1 (he ▸ hc2)
        obtain ⟨c2, hc2g, hc2id⟩ := hpres cid2 (List.mem_cons_of_mem _ hc2)
        refine ⟨c2, ?_, hc2id⟩
        rw [hg2def]
        dsimp only
        rw [dget_dset_ne _ _ _ _ hne2]
        exact hc2g)
      (by
        intro cid2 hc2 c2 hc2g
        have hne2 : cid2 ≠ cid := fun he => hnd.1 (he ▸ hc2)
        rw [hg2def] at hc2g
        dsimp only at hc2g
        rw [dget_dset_ne _ _ _ _ hne2] at hc2g
        exact hnoenr cid2 (List.mem_cons_of_mem _ hc2) c2 hc2g)
    obtain ⟨hh1, hh2, hh3, hh4, hh5, hh6⟩ := hih
    rw [hstep]
    refine ⟨hh1, ?_, ?_, ?_, ?_, ?_⟩
    · rw [hh2, hs1def]
      simp [List.append_assoc]
    · intro k hk
      rw [hh3 k hk, hg2def]
      simp only
      rw [dget_dset_ne _ _ _ _ hk]
    · rw [hh4, hg2def]
      simp only
      exact dkeys_dset _ _ _ _ hs
    · intro k
      rw [hh5 k]
      by_cases hkc : k = cid
      · subst hkc
        have hknr : k ∉ rest := hnd.1
        simp only [hknr, if_false, List.mem_cons, true_or, if_true]
        rw [dget_dset_self, hc]
        rfl
      · by_cases hkr : k ∈ rest
        · simp only [hkr, if_true, List.mem_cons, or_true, if_pos]
          rw [dget_dset_ne _ _ _ _ hkc]
        · have hknc : ¬(k = cid ∨ k ∈ rest) := by
            push_neg
            exact ⟨hkc, hkr⟩
          simp only [hkr, if_false, List.mem_cons, hknc]
          rw [dget_dset_ne _ _ _ _ hkc]
          simp [hkc]
    · rw [hh6, hg2def]
      simp only
      exact dkeys_dset _ _ _ _ hc

/-- Replaying every student's registered list over a graph of reset students
and empty-enrollment courses restores each student's registered list and
fills each course's enrolled list with exactly its students, in order. -/
theorem linkFold_spec (ss : List Student) (g : Graph)
    (hss : ∀ s ∈ ss, dget g.students s.student_id = some (resetS s))
    (hnds : (ss.map Student.student_id).Nodup)
    (hregnd : ∀ s ∈ ss, s.registered_courses.Nodup)
    (hcpres : ∀ s ∈ ss, ∀ cid ∈ s.registered_courses,
      ∃ c, dget g.courses cid = some c ∧ c.course_id = cid)
    (hnoenr : ∀ s ∈ ss, ∀ cid (c : Course), dget g.courses cid = some c →
      s.student_id ∉ c.enrolled_students) :
    (linkFold g ss).instructors = g.instructors ∧
    (∀ s ∈ ss, dget (linkFold g ss).students s.student_id = some s) ∧
    (∀ k, k ∉ ss.map Student.student_id →
      dget (linkFold g ss).students k = dget g.students k) ∧
    (linkFold g ss).students.map Prod.fst = g.students.map Prod.fst ∧
    (∀ k, dget (linkFold g ss).courses k = (dget g.courses k).map (fun c =>
      { c with enrolled_students := c.enrolled_students ++
          (ss.filter (fun s => s.registered_courses.contains k)).map Student.student_id })) ∧
    (linkFold g ss).courses.map Prod.fst = g.courses.map Prod.fst := by
  induction ss generalizing g with
  | nil =>
    refine ⟨rfl, fun s hs => absurd hs (List.not_mem_nil s), fun k _ => rfl, rfl, ?_, rfl⟩
    intro k
    simp [linkFold]
  | cons s rest ih =>
    simp only [List.map_cons, List.nodup_cons] at hnds
    have hone := linkStudentCourses_spec s.registered_courses g s.student_id (resetS s)
      (hss s (List.mem_cons_self _ _)) rfl (hregnd s (List.mem_cons_self _ _))
      (fun cid _ => List.not_mem_nil cid)
      (hcpres s (List.mem_cons_self _ _))
      (fun cid _ c hc => hnoenr s (List.mem_cons_self _ _) cid c hc)
    obtain ⟨ho1, ho2, ho3, ho4, ho5, ho6⟩ := hone
    set g1 : Graph := linkStudentCourses g s.student_id s.registered_courses with hg1def
    have hfold : linkFold g (s :: rest) = linkFold g1 rest := rfl
    have hih := ih g1
      (by
        intro s2 hs2
        have hne : s2.student_id ≠ s.student_id := fun he =>
          hnds.1 (he ▸ List.mem_map.mpr ⟨s2, hs2, rfl⟩)
        rw [ho3 s2.student_id hne]
        exact hss s2 (List.mem_cons_of_mem _ hs2))
      hnds.2
      (fun s2 hs2 => hregnd s2 (List.mem_cons_of_mem _ hs2))
      (by
        intro s2 hs2 cid hcid
        obtain ⟨c, hc, hcid2⟩ := hcpres s2 (List.mem_cons_of_mem _ hs2) cid hcid
        rw [ho5 cid]
        by_cases hcm : cid ∈ s.registered_courses
        · simp only [hcm, if_true, hc, Option.map_some']
          exact ⟨_, rfl, hcid2⟩
        · simp only [hcm, if_false]
          exact ⟨c, hc, hcid2⟩)
      (by
        intro s2 hs2 cid c2 hc2
        have hne : s2.student_id ≠ s.student_id := fun he =>
          hnds.1 (he ▸ List.mem_map.mpr ⟨s2, hs2, rfl⟩)
        rw [ho5 cid] at hc2
        by_cases hcm : cid ∈ s.registered_courses
        · simp only [hcm, if_true] at hc2
          cases hcg : dget g.courses cid with
          | none => rw [hcg] at hc2; simp at hc2
          | some c0 =>
            rw [hcg] at hc2
            simp only [Option.map_some'] at hc2
            have hc2e : ({ c0 with enrolled_students :=
                c0.enrolled_students ++ [s.student_id] } : Course) = c2 :=
              Option.some.inj hc2
            rw [← hc2e]
            simp only [List.mem_append, List.mem_singleton]
            push_neg
            exact ⟨hnoenr s2 (List.mem_cons_of_mem _ hs2) cid c0 hcg, hne⟩
        · simp only [hcm, if_false] at hc2
          exact hnoenr s2 (List.mem_cons_of_mem _ hs2) cid c2 hc2)
    obtain ⟨hi1, hi2, hi3, hi4, hi5, hi6⟩ := hih
    rw [hfold]
    refine ⟨by rw [hi1, ho1], ?_, ?_, by rw [hi4, ho4], ?_, by rw [hi6, ho6]⟩
    · intro s2 hs2
      rcases List.mem_cons.mp hs2 with he | ht
      · subst he
        have hsnr : s2.student_id ∉ rest.map Student.student_id := hnds.1
        rw [hi3 s2.student_id hsnr, ho2]
        simp [resetS]
      · exact hi2 s2 ht
    · intro k hk
      simp only [List.map_cons, List.mem_cons] at hk
      push_neg at hk
      rw [hi3 k hk.2, ho3 k hk.1]
    · intro k
      rw [hi5 k, ho5 k]
      by_cases hcm : k ∈ s.registered_courses
      · have hsc : s.registered_courses.contains k = true := by simpa using hcm
        simp only [hcm, if_true, List.filter_cons, hsc, List.map_cons]
        cases dget g.courses k with
        | none => rfl
        | some c0 =>
          simp [List.append_assoc]
      · have hsc : s.registered_courses.contains k = false := by simpa using hcm
        simp only [hcm, if_false, List.filter_cons, hsc]
        cases dget g.courses k with
        | none => rfl
        | some c0 => simp

/-- `linkStudentCourses` never changes the key lists or the instructors. -/
theorem linkStudentCourses_keys (g : Graph) (sid : String) (cids : List String) :
    (linkStudentCourses g sid cids).students.map Prod.fst = g.students.map Prod.fst ∧
    (linkStudentCourses g sid cids).courses.map Prod.fst = g.courses.map Prod.fst ∧
    (linkStudentCourses g sid cids).instructors = g.instructors := by
  induction cids generalizing g with
  | nil => exact ⟨rfl, rfl, rfl⟩
  | cons cid rest ih =>
    cases hc : dget g.courses cid with
    | none => simpa [linkStudentCourses, hc] using ih g
    | some c =>
      cases hs : dget g.students sid with
      | none => simpa [linkStudentCourses, hc, hs] using ih g
      | some s =>
        cases hreg : s.register_course c with
        | mk s2 c2 =>
          simp only [linkStudentCourses, hc, hs, hreg]
          obtain ⟨k1, k2, k3⟩ := ih { g with
            students := dset g.students sid s2, courses := dset g.courses cid c2 }
          refine ⟨?_, ?_, k3⟩
          · rw [k1]
            exact dkeys_dset _ _ _ _ hs
          · rw [k2]
            exact dkeys_dset _ _ _ _ hc

/-- With every student entry present, the JSON linking loop never raises and
computes the linking fold. -/
theorem loadLinksLoop_eq_linkFold (ss : List Student) (g : Graph)
    (hpres : ∀ s ∈ ss, (dget g.students s.student_id).isSome = true) :
    loadLinksLoop g (ss.map Student.to_dict) = (linkFold g ss, none) := by
  induction ss generalizing g with
  | nil => rfl
  | cons s rest ih =>
    obtain ⟨s0, hs0⟩ := Option.isSome_iff_exists.mp (hpres s (List.mem_cons_self _ _))
    simp only [List.map_cons, loadLinksLoop, Student.to_dict, hs0]
    rw [ih (linkStudentCourses g s.student_id s.registered_courses) (by
      intro s2 hs2
      rw [dget_isSome_iff_mem_keys,
        (linkStudentCourses_keys g s.student_id s.registered_courses).1,
        ← dget_isSome_iff_mem_keys]
      exact hpres s2 (List.mem_cons_of_mem _ hs2))]
    rfl

/-- The CSV instructor loop on exported rows computes exactly what the JSON
instructor loop computes on the exported entries. -/
theorem csvInstructors_eq_json (es : List Instructor) (g : Graph) :
    loadCsvInstructorsLoop g
      (es.map (fun i => (⟨i.name, i.age, i.email, i.instructor_id⟩ : InstructorRow)))
      = loadInstructorsLoop g (es.map Instructor.to_dict) := by
  induction es generalizing g with
  | nil => rfl
  | cons i rest ih =>
    simp only [List.map_cons, loadCsvInstructorsLoop, loadInstructorsLoop,
      Instructor.to_dict]
    cases hm : Instructor.make i.name i.age i.email i.instructor_id with
    | error e => rfl
    | ok i2 => exact ih _

/-- The CSV student loop on exported rows computes exactly what the JSON
student loop computes on the exported entries. -/
theorem csvStudents_eq_json (es : List Student) (g : Graph) :
    loadCsvStudentsLoop g
      (es.map (fun s => (⟨s.name, s.age, s.email, s.student_id⟩ : StudentRow)))
      = loadStudentsLoop g (es.map Student.to_dict) := by
  induction es generalizing g with
  | nil => rfl
  | cons s rest ih =>
    simp only [List.map_cons, loadCsvStudentsLoop, loadStudentsLoop, Student.to_dict]
    cases hm : Student.make s.name s.age s.email s.student_id with
    | error e => rfl
    | ok s2 => exact ih _

/-- The CSV course loop on exported rows computes exactly what the JSON course
loop computes on the exported entries. -/
theorem csvCourses_eq_json (cs : List Course) (g : Graph) :
    loadCsvCoursesLoop g
      (cs.map (fun c => (⟨c.course_id, c.course_name, c.instructor_id⟩ : CourseRow)))
      = loadCoursesLoop g (cs.map Course.to_dict) := by
  induction cs generalizing g with
  | nil => rfl
  | cons c rest ih =>
    simp only [List.map_cons, loadCsvCoursesLoop, loadCoursesLoop, Course.to_dict]
    cases hi : dget g.instructors c.instructor_id with
    | none => exact ih g
    | some i =>
      dsimp only
      cases hm : Course.make c.course_id c.course_name i.instructor_id with
      | error e => rfl
      | ok c2 => exact ih _

/-- One student's enrollment pairs replay exactly as the inner JSON linking
loop. -/
theorem loadCsvLinksLoop_pairs (cids : List String) (g : Graph) (sid : String) :
    loadCsvLinksLoop g (cids.map (fun cid => (sid, cid))) =
      linkStudentCourses g sid cids := by
  induction cids generalizing g with
  | nil => rfl
  | cons cid rest ih =>
    simp only [List.map_cons, loadCsvLinksLoop, linkStudentCourses]
    cases hs : dget g.students sid with
    | none =>
      cases hc : dget g.courses cid with
      | none => exact ih g
      | some c => exact ih g
    | some s =>
      cases hc : dget g.courses cid with
      | none => exact ih g
      | some c =>
        cases hreg : s.register_course c with
        | mk s2 c2 => exact ih _

/-- The CSV linking loop splits over list append. -/
theorem loadCsvLinksLoop_append (xs ys : List (String × String)) (g : Graph) :
    loadCsvLinksLoop g (xs ++ ys) = loadCsvLinksLoop (loadCsvLinksLoop g xs) ys := by
  induction xs generalizing g with
  | nil => rfl
  | cons p rest ih =>
    obtain ⟨sid, cid⟩ := p
    simp only [List.cons_append, loadCsvLinksLoop]
    cases hs : dget g.students sid with
    | none => exact ih g
    | some s =>
      cases hc : dget g.courses cid with
      | none => exact ih g
      | some c =>
        cases hreg : s.register_course c with
        | mk s2 c2 => exact ih _

/-- The exported enrollment pair file replays as the linking fold. -/
theorem loadCsvLinksLoop_flatMap (ss : List Student) (g : Graph) :
    loadCsvLinksLoop g (ss.flatMap (fun s => s.registered_courses.map
      (fun cid => (s.student_id, cid)))) = linkFold g ss := by
  induction ss generalizing g with
  | nil => rfl
  | cons s rest ih =>
    rw [show (s :: rest).flatMap (fun s => s.registered_courses.map
        (fun cid => (s.student_id, cid))) =
      s.registered_courses.map (fun cid => (s.student_id, cid)) ++
        rest.flatMap (fun s => s.registered_courses.map (fun cid => (s.student_id, cid)))
      from rfl]
    rw [loadCsvLinksLoop_append, loadCsvLinksLoop_pairs]
    exact ih _

/-! ## Claim C6 -/

/-- C6: exporting a well-formed graph to JSON or to the four CSV files and
importing the output into a fresh (empty) manager succeeds and reproduces the
same entities with identical scalar fields and the same relationship edge
sets, membership-wise. -/
theorem C6_export_import_round_trip (g : Graph) (hwf : WF g) :
    (load_from_json Graph.empty (JsonInput.doc (save_to_json g))).2 = none ∧
    GraphEquiv g (load_from_json Graph.empty (JsonInput.doc (save_to_json g))).1 ∧
    (load_from_csv Graph.empty (save_to_csv g)).2 = none ∧
    GraphEquiv g (load_from_csv Graph.empty (save_to_csv g)).1 := by
  obtain ⟨hk1, hk2, hk3, hn1, hn2, hn3, hf1, hf2, hf3, he1, he2, he3, hsym, hexact⟩ := hwf
  have hkS : g.students.map Prod.fst = (dvalues g.students).map Student.student_id :=
    keys_eq_values_ids _ _ hk1
  have hkI : g.instructors.map Prod.fst
      = (dvalues g.instructors).map Instructor.instructor_id :=
    keys_eq_values_ids _ _ hk2
  have hkC : g.courses.map Prod.fst = (dvalues g.courses).map Course.course_id :=
    keys_eq_values_ids _ _ hk3
  have hndSv : ((dvalues g.students).map Student.student_id).Nodup := hkS ▸ hn1
  have hndIv : ((dvalues g.instructors).map Instructor.instructor_id).Nodup := hkI ▸ hn2
  have hndCv : ((dvalues g.courses).map Course.course_id).Nodup := hkC ▸ hn3
  have hfS : ∀ s ∈ dvalues g.students, StudentFieldsOk s := by
    intro s hs
    obtain ⟨p, hp, hpe⟩ := List.mem_map.mp hs
    exact hpe ▸ hf1 p hp
  have hfI : ∀ i ∈ dvalues g.instructors, InstructorFieldsOk i := by
    intro i hi
    obtain ⟨p, hp, hpe⟩ := List.mem_map.mp hi
    exact hpe ▸ hf2 p hp
  have hfC : ∀ c ∈ dvalues g.courses, CourseFieldsOk c := by
    intro c hc
    obtain ⟨p, hp, hpe⟩ := List.mem_map.mp hc
    exact hpe ▸ hf3 p hp
  -- phase 1: instructors
  have h1 := loadInstructorsLoop_spec (dvalues g.instructors) Graph.empty hfI
    (fun i _ => List.not_mem_nil _) hndIv
  simp only [Graph.empty, List.nil_append] at h1
  -- phase 2: students
  have h2 := loadStudentsLoop_spec (dvalues g.students)
    ⟨[], (dvalues g.instructors).map (fun i => (i.instructor_id, resetI i)), []⟩ hfS
    (fun s _ => List.not_mem_nil _) hndSv
  simp only [List.nil_append] at h2
  -- keys of the rebuilt dictionaries
  have hIkeys : (((dvalues g.instructors).map
      (fun i => (i.instructor_id, resetI i))).map Prod.fst) = g.instructors.map Prod.fst := by
    rw [hkI]
    simp [List.map_map, Function.comp]
  have hSkeys : (((dvalues g.students).map
      (fun s => (s.student_id, resetS s))).map Prod.fst) = g.students.map Prod.fst := by
    rw [hkS]
    simp [List.map_map, Function.comp]
  have hCkeys : (((dvalues g.courses).map
      (fun c => (c.course_id, resetC c))).map Prod.fst) = g.courses.map Prod.fst := by
    rw [hkC]
    simp [List.map_map, Function.comp]
  -- phase 3: courses
  have h3 := loadCoursesLoop_spec (dvalues g.courses)
    ⟨(dvalues g.students).map (fun s => (s.student_id, resetS s)),
     (dvalues g.instructors).map (fun i => (i.instructor_id, resetI i)), []⟩ hfC
    (by
      intro p hp
      obtain ⟨i, hi, hie⟩ := List.mem_map.mp hp
      rw [← hie]
      rfl)
    (by
      intro c hc
      obtain ⟨p, hp, hpe⟩ := List.mem_map.mp hc
      rw [dget_isSome_iff_mem_keys]
      show c.instructor_id ∈ ((dvalues g.instructors).map
        (fun i => (i.instructor_id, resetI i))).map Prod.fst
      rw [hIkeys, ← dget_isSome_iff_mem_keys]
      exact hpe ▸ (he2 p hp).2.1)
    (fun c _ => List.not_mem_nil _)
    hndCv
    (by
      intro c _ p hp
      obtain ⟨i, hi, hie⟩ := List.mem_map.mp hp
      rw [← hie]
      exact List.not_mem_nil _)
  obtain ⟨hh1, hh2, hh3, hh4, hh5, hh6⟩ := h3
  simp only [List.nil_append] at hh3
  -- name the phase-3 output graph
  have h3eq : loadCoursesLoop
      ⟨(dvalues g.students).map (fun s => (s.student_id, resetS s)),
       (dvalues g.instructors).map (fun i => (i.instructor_id, resetI i)), []⟩
      ((dvalues g.courses).map Course.to_dict) =
      ((loadCoursesLoop
        ⟨(dvalues g.students).map (fun s => (s.student_id, resetS s)),
         (dvalues g.instructors).map (fun i => (i.instructor_id, resetI i)), []⟩
        ((dvalues g.courses).map Course.to_dict)).1, none) :=
    Prod.ext rfl hh1
  -- phase 4 hypotheses on the phase-3 output
  have hpres4 : ∀ s ∈ dvalues g.students,
      (dget (loadCoursesLoop
        ⟨(dvalues g.students).map (fun s => (s.student_id, resetS s)),
         (dvalues g.instructors).map (fun i => (i.instructor_id, resetI i)), []⟩
        ((dvalues g.courses).map Course.to_dict)).1.students s.student_id).isSome = true := by
    intro s hs
    rw [hh2]
    rw [dget_map_of_mem (dvalues g.students) Student.student_id resetS hndSv s hs]
    rfl
  have h4 := loadLinksLoop_eq_linkFold (dvalues g.students)
    (loadCoursesLoop
      ⟨(dvalues g.students).map (fun s => (s.student_id, resetS s)),
       (dvalues g.instructors).map (fun i => (i.instructor_id, resetI i)), []⟩
      ((dvalues g.courses).map Course.to_dict)).1 hpres4
  have h5 := linkFold_spec (dvalues g.students)
    (loadCoursesLoop
      ⟨(dvalues g.students).map (fun s => (s.student_id, resetS s)),
       (dvalues g.instructors).map (fun i => (i.instructor_id, resetI i)), []⟩
      ((dvalues g.courses).map Course.to_dict)).1
    (by
      intro s hs
      rw [hh2]
      exact dget_map_of_mem (dvalues g.students) Student.student_id resetS hndSv s hs)
    hndSv
    (by
      intro s hs
      obtain ⟨p, hp, hpe⟩ := List.mem_map.mp hs
      exact hpe ▸ (he1 p hp).1)
    (by
      intro s hs cid hcid
      obtain ⟨p, hp, hpe⟩ := List.mem_map.mp hs
      have hcs : (dget g.courses cid).isSome = true := by
        apply (he1 p hp).2 cid
        rw [hpe]
        exact hcid
      rw [dget_isSome_iff_mem_keys, hkC] at hcs
      obtain ⟨c, hc, hce⟩ := List.mem_map.mp hcs
      refine ⟨resetC c, ?_, hce ▸ rfl⟩
      rw [hh3]
      rw [← hce]
      exact dget_map_of_mem (dvalues g.courses) Course.course_id resetC hndCv c hc)
    (by
      intro s hs cid c2 hc2
      rw [hh3] at hc2
      have := dget_mem _ _ _ hc2
      obtain ⟨c0, hc0, hc0e⟩ := List.mem_map.mp this
      have hce2 : resetC c0 = c2 := by
        have := congrArg Prod.snd hc0e
        simpa using this
      rw [← hce2]
      exact List.not_mem_nil _)
  obtain ⟨hl1, hl2, hl3, hl4, hl5, hl6⟩ := h5
  -- the common final graph
  have hjson : load_from_json Graph.empty (JsonInput.doc (save_to_json g)) =
      (linkFold
        (loadCoursesLoop
          ⟨(dvalues g.students).map (fun s => (s.student_id, resetS s)),
           (dvalues g.instructors).map (fun i => (i.instructor_id, resetI i)), []⟩
          ((dvalues g.courses).map Course.to_dict)).1 (dvalues g.students), none) := by
    simp only [load_from_json, save_to_json, Graph.empty]
    rw [h1]
    dsimp only
    rw [h2]
    dsimp only
    rw [h3eq]
    dsimp only
    exact h4
  have hcsv : load_from_csv Graph.empty (save_to_csv g) =
      (linkFold
        (loadCoursesLoop
          ⟨(dvalues g.students).map (fun s => (s.student_id, resetS s)),
           (dvalues g.instructors).map (fun i => (i.instructor_id, resetI i)), []⟩
          ((dvalues g.courses).map Course.to_dict)).1 (dvalues g.students), none) := by
    simp only [load_from_csv, save_to_csv, Graph.empty]
    rw [csvInstructors_eq_json, h1]
    dsimp only
    rw [csvStudents_eq_json, h2]
    dsimp only
    rw [csvCourses_eq_json, h3eq]
    dsimp only
    rw [loadCsvLinksLoop_flatMap]
  -- the equivalence
  have hequiv : GraphEquiv g
      (linkFold
        (loadCoursesLoop
          ⟨(dvalues g.students).map (fun s => (s.student_id, resetS s)),
           (dvalues g.instructors).map (fun i => (i.instructor_id, resetI i)), []⟩
          ((dvalues g.courses).map Course.to_dict)).1 (dvalues g.students)) := by
    refine ⟨?_, ?_, ?_⟩
    · intro k
      cases hq : dget g.students k with
      | none =>
        have hkm : k ∉ g.students.map Prod.fst := by
          rw [← dget_isSome_iff_mem_keys]
          simp [hq]
        have hval : k ∉ (dvalues g.students).map Student.student_id := hkS ▸ hkm
        rw [hl3 k hval, hh2, dget_map_none _ _ _ _ hval]
        trivial
      | some s =>
        have hmem := dget_mem _ _ _ hq
        have hkey : k = s.student_id := hk1 (k, s) hmem
        have hsv : s ∈ dvalues g.students := List.mem_map.mpr ⟨(k, s), hmem, rfl⟩
        have := hl2 s hsv
        rw [hkey, this]
        exact ⟨rfl, rfl, rfl, rfl, fun _ => Iff.rfl⟩
    · intro k
      cases hq : dget g.instructors k with
      | none =>
        have hkm : k ∉ g.instructors.map Prod.fst := by
          rw [← dget_isSome_iff_mem_keys]
          simp [hq]
        have hval : k ∉ (dvalues g.instructors).map Instructor.instructor_id := hkI ▸ hkm
        rw [hl1, hh6, dget_map_none _ _ _ _ hval]
        trivial
      | some i =>
        have hmem := dget_mem _ _ _ hq
        have hkey : k = i.instructor_id := hk2 (k, i) hmem
        have hiv : i ∈ dvalues g.instructors := List.mem_map.mpr ⟨(k, i), hmem, rfl⟩
        rw [hl1, hh6 k, hkey,
          dget_map_of_mem (dvalues g.instructors) Instructor.instructor_id resetI hndIv i hiv]
        refine ⟨rfl, rfl, rfl, rfl, ?_⟩
        intro cid
        simp only [resetI, List.nil_append, List.mem_map, List.mem_filter]
        constructor
        · intro hcin
          have hcs : (dget g.courses cid).isSome = true := (he3 (k, i) hmem).2 cid hcin
          rw [dget_isSome_iff_mem_keys, hkC] at hcs
          obtain ⟨c, hc, hce⟩ := List.mem_map.mp hcs
          obtain ⟨pc, hpc, hpce⟩ := List.mem_map.mp hc
          have hcourse : c.course_id ∈ i.assigned_courses ↔ c.instructor_id = i.instructor_id := by
            have := hexact (k, i) hmem pc hpc
            rw [hpce] at this
            exact this
          have hinst : c.instructor_id = i.instructor_id := hcourse.mp (hce ▸ hcin)
          refine ⟨c, ⟨hc, ?_⟩, hce⟩
          simp [hinst, hkey]
        · rintro ⟨c, ⟨hc, hfil⟩, hce⟩
          obtain ⟨pc, hpc, hpce⟩ := List.mem_map.mp hc
          have hinst : c.instructor_id = i.instructor_id := by
            simpa [beq_iff_eq] using hfil
          have hcourse : c.course_id ∈ i.assigned_courses ↔ c.instructor_id = i.instructor_id := by
            have := hexact (k, i) hmem pc hpc
            rw [hpce] at this
            exact this
          rw [← hce]
          exact hcourse.mpr hinst
    · intro k
      cases hq : dget g.courses k with
      | none =>
        have hkm : k ∉ g.courses.map Prod.fst := by
          rw [← dget_isSome_iff_mem_keys]
          simp [hq]
        have hval : k ∉ (dvalues g.courses).map Course.course_id := hkC ▸ hkm
        rw [hl5 k, hh3, dget_map_none _ _ _ _ hval]
        trivial
      | some c =>
        have hmem := dget_mem _ _ _ hq
        have hkey : k = c.course_id := hk3 (k, c) hmem
        have hcv : c ∈ dvalues g.courses := List.mem_map.mpr ⟨(k, c), hmem, rfl⟩
        rw [hl5 k, hh3, hkey,
          dget_map_of_mem (dvalues g.courses) Course.course_id resetC hndCv c hcv]
        refine ⟨rfl, rfl, rfl, ?_⟩
        intro sid
        simp only [resetC, List.nil_append, Option.map_some', List.mem_map, List.mem_filter]
        constructor
        · intro hsin
          have hss : (dget g.students sid).isSome = true := (he2 (k, c) hmem).2.2 sid hsin
          rw [dget_isSome_iff_mem_keys, hkS] at hss
          obtain ⟨s, hs, hse⟩ := List.mem_map.mp hss
          obtain ⟨ps, hps, hpse⟩ := List.mem_map.mp hs
          have hsymm : c.course_id ∈ s.registered_courses ↔ s.student_id ∈ c.enrolled_students := by
            have := hsym ps hps (k, c) hmem
            rw [hpse] at this
            exact this
          have hreg : c.course_id ∈ s.registered_courses := hsymm.mpr (hse ▸ hsin)
          refine ⟨s, ⟨hs, ?_⟩, hse⟩
          simpa using hreg
        · rintro ⟨s, ⟨hs, hfil⟩, hse⟩
          obtain ⟨ps, hps, hpse⟩ := List.mem_map.mp hs
          have hreg : c.course_id ∈ s.registered_courses := by
            simpa using hfil
          have hsymm : c.course_id ∈ s.registered_courses ↔ s.student_id ∈ c.enrolled_students := by
            have := hsym ps hps (k, c) hmem
            rw [hpse] at this
            exact this
          rw [← hse]
          exact hsymm.mp hreg
  rw [hjson, hcsv]
  exact ⟨rfl, hequiv, rfl, hequiv⟩

/-- Witness for C6: the round trip at the concrete sample graph. -/
theorem C6_export_import_round_trip_witness :
    WF exGraph ∧
    ((load_from_json Graph.empty (JsonInput.doc (save_to_json exGraph))).2 = none ∧
     GraphEquiv exGraph (load_from_json Graph.empty (JsonInput.doc (save_to_json exGraph))).1 ∧
     (load_from_csv Graph.empty (save_to_csv exGraph)).2 = none ∧
     GraphEquiv exGraph (load_from_csv Graph.empty (save_to_csv exGraph)).1) :=
  ⟨by decide, C6_export_import_round_trip exGraph (by decide)⟩

end SMS
